/-
Verification of the black-hawk service-monitoring dashboard.

Shallow embedding of the monitoring engine and its two storage backends:
  * `MemStorage`   — src/server/storage (in-memory `Map`-backed backend);
    JS `Map`s are modelled as association lists in insertion order
    (`set` replaces in place or appends, `delete` removes by key,
    `values()` is the list of values).
  * `DbState`      — the Drizzle/Postgres-backed `DatabaseStorage`
    (tables as row lists, `onConflictDoUpdate` keyed on serviceId).
  * `monitorService` / `monitorServices` — the background MonitoringService
    of src/server/routes.ts, with probe results modelled as data.

Generated ids (`randomUUID`) are modelled as an opaque fresh-id counter:
every id handed out is distinct, which is the only property of UUIDs the
code relies on.  Timestamps (`new Date()`) are an explicit `now : Nat`
argument threaded through every write.
-/
import Mathlib

set_option autoImplicit false

namespace BlackHawk

/-- JS `x || null` on a nullable string: `""` (and `null`) are falsy. -/
def jsOrNull : Option String → Option String
  | some s => if s = "" then none else some s
  | none => none

/-- JS `n ? n.toString() : null` on a nullable number: `0` is falsy. -/
def numToStringOrNull : Option Int → Option String
  | some n => if n = 0 then none else some (toString n)
  | none => none

/-! ### Data model (shared/schema.ts) -/

/-- A registered service (table `services`). -/
structure Service where
  id : Nat
  name : String
  url : String
  categoryId : Nat
  createdAt : Nat
  updatedAt : Nat
deriving DecidableEq, Repr

/-- Payload of a `health_data` row: status ("UP"/"DOWN") and the opaque
`healthComponents` JSON (modelled as an opaque nullable string). -/
structure HealthPayload where
  status : String
  healthComponents : Option String
deriving DecidableEq, Repr

/-- Payload of a `service_info` row. -/
structure InfoPayload where
  version : Option String
  branch : Option String
  buildTime : Option String
deriving DecidableEq, Repr

/-- Payload of a `kafka_streams_info` row. -/
structure KafkaPayload where
  state : Option String
  threads : Option String
  topics : Option String
  partitions : Option String
deriving DecidableEq, Repr

/-- A stored dependent record (HealthData / ServiceInfo / KafkaStreamsInfo):
generated id, owning serviceId, kind-specific payload, and the
`lastChecked` / `lastUpdated` timestamp (`stamp`). -/
structure Stored (α : Type) where
  id : Nat
  serviceId : Nat
  payload : α
  stamp : Nat
deriving DecidableEq, Repr

/-! ### JS `Map` as an association list (insertion order) -/

/-- `Map.get`. -/
def mapGet {β : Type} (m : List (Nat × β)) (k : Nat) : Option β :=
  (m.find? (fun e => e.1 == k)).map (·.2)

/-- `Map.set`: replace in place if the key exists, else append. -/
def mapSet {β : Type} : List (Nat × β) → Nat → β → List (Nat × β)
  | [], k, v => [(k, v)]
  | e :: rest, k, v => if e.1 = k then (k, v) :: rest else e :: mapSet rest k v

/-- `Map.delete` (dropping the entry). -/
def mapDelete {β : Type} (m : List (Nat × β)) (k : Nat) : List (Nat × β) :=
  m.filter (fun e => e.1 != k)

/-- `Array.from(map.values())`. -/
def mapValues {β : Type} (m : List (Nat × β)) : List β :=
  m.map (·.2)

/-- `Array.from(map.values()).find(r => r.serviceId === sid)` — the lookup
used by every per-service accessor of MemStorage. -/
def recFor {α : Type} (m : List (Nat × Stored α)) (sid : Nat) : Option (Stored α) :=
  (mapValues m).find? (fun r => r.serviceId == sid)

/-- The shared shape of MemStorage's three upsert methods: find an existing
record by serviceId, reuse its id (else take a fresh one), build the new
record with normalized payload (`field || null` on each nullable field) and
the current timestamp, and `Map.set` it at that id. -/
def upsertStored {α : Type} (norm : α → α) (m : List (Nat × Stored α))
    (fresh : Nat) (now : Nat) (sid : Nat) (p : α) :
    Stored α × List (Nat × Stored α) :=
  let existing := recFor m sid
  let id := match existing with
    | some e => e.id
    | none => fresh
  let r : Stored α := ⟨id, sid, norm p, now⟩
  (r, mapSet m id r)

/-- MemStorage.upsertHealthData: `healthComponents || null`. -/
def normHealth (p : HealthPayload) : HealthPayload :=
  { p with healthComponents := jsOrNull p.healthComponents }

/-- MemStorage.upsertServiceInfo: `version/branch/buildTime || null`. -/
def normInfo (p : InfoPayload) : InfoPayload :=
  ⟨jsOrNull p.version, jsOrNull p.branch, jsOrNull p.buildTime⟩

/-- MemStorage.upsertKafkaStreamsInfo: `state/threads/topics/partitions || null`. -/
def normKafka (p : KafkaPayload) : KafkaPayload :=
  ⟨jsOrNull p.state, jsOrNull p.threads, jsOrNull p.topics, jsOrNull p.partitions⟩

/-! ### MemStorage (src/server/storage.ts, in-memory variant) -/

structure MemStorage where
  services : List (Nat × Service)
  healthData : List (Nat × Stored HealthPayload)
  serviceInfo : List (Nat × Stored InfoPayload)
  kafkaStreamsInfo : List (Nat × Stored KafkaPayload)
  /-- fresh-id source standing in for `randomUUID()`. -/
  nextId : Nat
deriving DecidableEq, Repr

def MemStorage.init : MemStorage := ⟨[], [], [], [], 0⟩

/-- Fields accepted by `insertServiceSchema` (id and timestamps omitted). -/
structure InsertService where
  name : String
  url : String
  categoryId : Nat
deriving DecidableEq, Repr

/-- `Partial<InsertService>` for updateService. -/
structure UpdateService where
  name : Option String
  url : Option String
  categoryId : Option Nat
deriving DecidableEq, Repr

def MemStorage.createService (st : MemStorage) (now : Nat) (ins : InsertService) :
    Service × MemStorage :=
  let id := st.nextId
  let service : Service := ⟨id, ins.name, ins.url, ins.categoryId, now, now⟩
  (service, { st with services := mapSet st.services id service, nextId := st.nextId + 1 })

def MemStorage.getService (st : MemStorage) (id : Nat) : Option Service :=
  mapGet st.services id

def MemStorage.getAllServices (st : MemStorage) : List Service :=
  mapValues st.services

def MemStorage.updateService (st : MemStorage) (now : Nat) (id : Nat) (u : UpdateService) :
    Option Service × MemStorage :=
  match mapGet st.services id with
  | none => (none, st)
  | some service =>
      let updated : Service := { service with
        name := u.name.getD service.name
        url := u.url.getD service.url
        categoryId := u.categoryId.getD service.categoryId
        updatedAt := now }
      (some updated, { st with services := mapSet st.services id updated })

/-- MemStorage.deleteService: deletes the service and then calls
`delete(id)` on the three dependent maps — with the service's id, even
though those maps are keyed by each record's own generated id. -/
def MemStorage.deleteService (st : MemStorage) (id : Nat) : Bool × MemStorage :=
  let deleted := (mapGet st.services id).isSome
  (deleted, { st with
    services := mapDelete st.services id
    healthData := mapDelete st.healthData id
    serviceInfo := mapDelete st.serviceInfo id
    kafkaStreamsInfo := mapDelete st.kafkaStreamsInfo id })

def MemStorage.upsertHealthData (st : MemStorage) (now : Nat) (sid : Nat)
    (p : HealthPayload) : Stored HealthPayload × MemStorage :=
  let res := upsertStored normHealth st.healthData st.nextId now sid p
  let fresh := if (recFor st.healthData sid).isSome then st.nextId else st.nextId + 1
  (res.1, { st with healthData := res.2, nextId := fresh })

def MemStorage.upsertServiceInfo (st : MemStorage) (now : Nat) (sid : Nat)
    (p : InfoPayload) : Stored InfoPayload × MemStorage :=
  let res := upsertStored normInfo st.serviceInfo st.nextId now sid p
  let fresh := if (recFor st.serviceInfo sid).isSome then st.nextId else st.nextId + 1
  (res.1, { st with serviceInfo := res.2, nextId := fresh })

def MemStorage.upsertKafkaStreamsInfo (st : MemStorage) (now : Nat) (sid : Nat)
    (p : KafkaPayload) : Stored KafkaPayload × MemStorage :=
  let res := upsertStored normKafka st.kafkaStreamsInfo st.nextId now sid p
  let fresh := if (recFor st.kafkaStreamsInfo sid).isSome then st.nextId else st.nextId + 1
  (res.1, { st with kafkaStreamsInfo := res.2, nextId := fresh })

def MemStorage.getHealthDataByServiceId (st : MemStorage) (sid : Nat) :
    Option (Stored HealthPayload) :=
  recFor st.healthData sid

def MemStorage.getServiceInfoByServiceId (st : MemStorage) (sid : Nat) :
    Option (Stored InfoPayload) :=
  recFor st.serviceInfo sid

def MemStorage.getKafkaStreamsInfoByServiceId (st : MemStorage) (sid : Nat) :
    Option (Stored KafkaPayload) :=
  recFor st.kafkaStreamsInfo sid

/-- A service joined with its latest dependent records (read-time join). -/
structure ServiceWithDetails where
  service : Service
  healthData : Option (Stored HealthPayload)
  serviceInfo : Option (Stored InfoPayload)
  kafkaStreamsInfo : Option (Stored KafkaPayload)
deriving DecidableEq, Repr

def MemStorage.getServicesWithDetails (st : MemStorage) : List ServiceWithDetails :=
  (mapValues st.services).map (fun s =>
    ⟨s, recFor st.healthData s.id, recFor st.serviceInfo s.id, recFor st.kafkaStreamsInfo s.id⟩)

/-- The HealthSummary payload; counts as integers, `lastUpdate` as `now`. -/
structure HealthSummary where
  totalServices : Int
  healthyServices : Int
  unhealthyServices : Int
  unknownServices : Int
  lastUpdate : Nat
deriving DecidableEq, Repr

/-- MemStorage.getHealthSummary: counts UP / DOWN over *all* stored health
records, takes the total from the services map, and sets
`unknown := total - healthy - unhealthy`. -/
def MemStorage.getHealthSummary (st : MemStorage) (now : Nat) : HealthSummary :=
  let healthDataArray := mapValues st.healthData
  let totalServices : Int := st.services.length
  let healthyServices : Int := (healthDataArray.filter (fun h => h.payload.status == "UP")).length
  let unhealthyServices : Int := (healthDataArray.filter (fun h => h.payload.status == "DOWN")).length
  ⟨totalServices, healthyServices, unhealthyServices,
    totalServices - healthyServices - unhealthyServices, now⟩

/-! ### Probe outcomes (MonitoringService.monitorService, src/server/routes.ts)

Each of the three axios calls either throws (transport failure / timeout —
and, for info & kafka, any status ≥ 400, since those two use the default
`validateStatus`) or yields an HTTP status plus an optionally-decoded body.
`none` as a body models a falsy `response.data`. -/

/-- Decoded body of `/actuator/health`: optional top-level `status` and
opaque `components`. -/
structure HealthBody where
  status : Option String
  components : Option String
deriving DecidableEq, Repr

inductive HealthProbe where
  | failure
  | response (httpStatus : Nat) (body : Option HealthBody)
deriving DecidableEq, Repr

/-- Decoded body of `/actuator/info`: `build.version`, `git.branch`, `build.time`. -/
structure InfoBody where
  buildVersion : Option String
  gitBranch : Option String
  buildTime : Option String
deriving DecidableEq, Repr

inductive InfoProbe where
  | failure
  | response (httpStatus : Nat) (body : Option InfoBody)
deriving DecidableEq, Repr

/-- Decoded body of `/actuator/kafkastreams`. `topics = some l` means the
field is a JS array; `threads`/`partitions` are JSON numbers. -/
structure KafkaBody where
  state : Option String
  threads : Option Int
  topics : Option (List String)
  partitions : Option Int
deriving DecidableEq, Repr

inductive KafkaProbe where
  | failure
  | response (httpStatus : Nat) (body : Option KafkaBody)
deriving DecidableEq, Repr

/-- One service's probe results for one monitoring cycle. -/
structure ProbeOutcome where
  health : HealthProbe
  info : InfoProbe
  kafka : KafkaProbe
deriving DecidableEq, Repr

/-- `healthResponse.data?.status`. -/
def healthBodyStatus : Option HealthBody → Option String
  | some b => b.status
  | none => none

/-- `healthResponse.data?.components`. -/
def healthBodyComponents : Option HealthBody → Option String
  | some b => b.components
  | none => none

/-- The InsertHealthData built by monitorService: in the catch branch
(transport failure) a plain DOWN record; otherwise status is
`status === 200 && data?.status === 'UP' ? 'UP' : 'DOWN'` and
components are `data?.components || null`. -/
def healthInsertOf : HealthProbe → HealthPayload
  | .failure => ⟨"DOWN", none⟩
  | .response s b =>
      ⟨if s = 200 ∧ healthBodyStatus b = some "UP" then "UP" else "DOWN",
        jsOrNull (healthBodyComponents b)⟩

/-- The InsertServiceInfo built on info-probe soft-success. -/
def infoInsertOf (b : InfoBody) : InfoPayload :=
  ⟨jsOrNull b.buildVersion, jsOrNull b.gitBranch, jsOrNull b.buildTime⟩

/-- The InsertKafkaStreamsInfo built on streams-probe soft-success:
`state || null`, `threads ? threads.toString() : null`,
`Array.isArray(topics) ? topics.join(', ') : null`,
`partitions ? partitions.toString() : null`. -/
def kafkaInsertOf (b : KafkaBody) : KafkaPayload :=
  ⟨jsOrNull b.state, numToStringOrNull b.threads,
    b.topics.map (fun ts => String.intercalate ", " ts),
    numToStringOrNull b.partitions⟩

/-- The info sub-probe's effect: upsert only on soft-success
(`infoResponse.status === 200 && infoResponse.data`); a thrown request or a
failed guard leaves the store untouched (logged soft-fail). -/
def infoStep (st : MemStorage) (now : Nat) (serviceId : Nat) : InfoProbe → MemStorage
  | .failure => st
  | .response s b =>
      if s = 200 then
        match b with
        | some body => (st.upsertServiceInfo now serviceId (infoInsertOf body)).2
        | none => st
      else st

/-- The kafka-streams sub-probe's effect, same soft-fail policy as info. -/
def kafkaStep (st : MemStorage) (now : Nat) (serviceId : Nat) : KafkaProbe → MemStorage
  | .failure => st
  | .response s b =>
      if s = 200 then
        match b with
        | some body => (st.upsertKafkaStreamsInfo now serviceId (kafkaInsertOf body)).2
        | none => st
      else st

/-- MonitoringService.monitorService: the health record is upserted in every
case (classified on success, DOWN in the catch branch); the info and kafka
sub-probes only run when the health request did not throw. -/
def MemStorage.monitorService (st : MemStorage) (now : Nat) (serviceId : Nat)
    (o : ProbeOutcome) : MemStorage :=
  let st1 := (st.upsertHealthData now serviceId (healthInsertOf o.health)).2
  match o.health with
  | .failure => st1
  | .response _ _ => kafkaStep (infoStep st1 now serviceId o.info) now serviceId o.kafka

/-- MonitoringService.monitorServices: read the service list once, then
probe each service in order.  `outcomes` assigns each service its probe
results for this cycle. -/
def MemStorage.monitorServices (st : MemStorage) (now : Nat)
    (outcomes : Nat → ProbeOutcome) : MemStorage :=
  (st.getAllServices).foldl
    (fun acc service => acc.monitorService now service.id (outcomes service.id)) st

/-- Response body of POST /api/services/refresh. -/
structure RefreshResponse where
  message : String
  count : Nat
deriving DecidableEq, Repr

/-- The manual-refresh handler: reads the service list and answers with a
message and the count; it performs no writes and triggers no probe. -/
def refreshHandler (st : MemStorage) : RefreshResponse × MemStorage :=
  let services := st.getAllServices
  (⟨"Refreshing " ++ toString services.length ++ " services", services.length⟩, st)

/-! ### Reachability: sequences of storage operations -/

inductive StoreOp where
  | create (now : Nat) (ins : InsertService)
  | update (now : Nat) (id : Nat) (u : UpdateService)
  | delete (id : Nat)
  | upsertHealth (now : Nat) (sid : Nat) (p : HealthPayload)
  | upsertInfo (now : Nat) (sid : Nat) (p : InfoPayload)
  | upsertKafka (now : Nat) (sid : Nat) (p : KafkaPayload)
deriving DecidableEq, Repr

def MemStorage.applyOp (st : MemStorage) : StoreOp → MemStorage
  | .create now ins => (st.createService now ins).2
  | .update now id u => (st.updateService now id u).2
  | .delete id => (st.deleteService id).2
  | .upsertHealth now sid p => (st.upsertHealthData now sid p).2
  | .upsertInfo now sid p => (st.upsertServiceInfo now sid p).2
  | .upsertKafka now sid p => (st.upsertKafkaStreamsInfo now sid p).2

/-- The store reached from the empty store by a sequence of operations. -/
def MemStorage.run (ops : List StoreOp) : MemStorage :=
  ops.foldl MemStorage.applyOp MemStorage.init

/-! ### DatabaseStorage (src/server/storage.ts, Drizzle/Postgres variant)

Tables are row lists; `db.select().from(t).where(eq(col, v))` is a filter,
`const [x] = ...` takes the first row (`find?`), and `onConflictDoUpdate`
with target `serviceId` updates the conflicting row in place. -/

structure Category where
  id : Nat
  name : String
  description : Option String
deriving DecidableEq, Repr

structure DbState where
  services : List Service
  healthData : List (Stored HealthPayload)
  serviceInfo : List (Stored InfoPayload)
  kafkaStreamsInfo : List (Stored KafkaPayload)
  categories : List Category
  nextId : Nat
deriving DecidableEq, Repr

def DbState.init : DbState := ⟨[], [], [], [], [], 0⟩

/-- `insert ... onConflictDoUpdate({ target: serviceId, set: {...} })`:
update the row whose serviceId conflicts, else insert a fresh row.
Unlike MemStorage, the set clause stores the input fields as given. -/
def dbUpsertRow {α : Type} (m : List (Stored α)) (fresh : Nat) (now : Nat)
    (sid : Nat) (p : α) : Stored α × List (Stored α) :=
  match m.find? (fun r => r.serviceId == sid) with
  | some e => (⟨e.id, sid, p, now⟩,
      m.map (fun r => if r.serviceId = sid then ⟨r.id, sid, p, now⟩ else r))
  | none => (⟨fresh, sid, p, now⟩, m ++ [⟨fresh, sid, p, now⟩])

def DbState.createService (db : DbState) (now : Nat) (ins : InsertService) :
    Service × DbState :=
  let s : Service := ⟨db.nextId, ins.name, ins.url, ins.categoryId, now, now⟩
  (s, { db with services := db.services ++ [s], nextId := db.nextId + 1 })

def DbState.getService (db : DbState) (id : Nat) : Option Service :=
  db.services.find? (fun s => s.id == id)

def DbState.getAllServices (db : DbState) : List Service :=
  db.services

def DbState.updateService (db : DbState) (now : Nat) (id : Nat) (u : UpdateService) :
    Option Service × DbState :=
  let upd := fun (s : Service) => { s with
    name := u.name.getD s.name
    url := u.url.getD s.url
    categoryId := u.categoryId.getD s.categoryId
    updatedAt := now }
  match db.services.find? (fun s => s.id == id) with
  | none => (none, db)
  | some s => (some (upd s),
      { db with services := db.services.map (fun r => if r.id = id then upd r else r) })

/-- DatabaseStorage.deleteService: deletes the dependent rows *by serviceId*
and then the service row. -/
def DbState.deleteService (db : DbState) (id : Nat) : Bool × DbState :=
  let existed := (db.services.find? (fun s => s.id == id)).isSome
  (existed, { db with
    healthData := db.healthData.filter (fun r => r.serviceId != id)
    serviceInfo := db.serviceInfo.filter (fun r => r.serviceId != id)
    kafkaStreamsInfo := db.kafkaStreamsInfo.filter (fun r => r.serviceId != id)
    services := db.services.filter (fun s => s.id != id) })

def DbState.upsertHealthData (db : DbState) (now : Nat) (sid : Nat)
    (p : HealthPayload) : Stored HealthPayload × DbState :=
  let res := dbUpsertRow db.healthData db.nextId now sid p
  let fresh := if (db.healthData.find? (fun r => r.serviceId == sid)).isSome
    then db.nextId else db.nextId + 1
  (res.1, { db with healthData := res.2, nextId := fresh })

def DbState.upsertServiceInfo (db : DbState) (now : Nat) (sid : Nat)
    (p : InfoPayload) : Stored InfoPayload × DbState :=
  let res := dbUpsertRow db.serviceInfo db.nextId now sid p
  let fresh := if (db.serviceInfo.find? (fun r => r.serviceId == sid)).isSome
    then db.nextId else db.nextId + 1
  (res.1, { db with serviceInfo := res.2, nextId := fresh })

def DbState.upsertKafkaStreamsInfo (db : DbState) (now : Nat) (sid : Nat)
    (p : KafkaPayload) : Stored KafkaPayload × DbState :=
  let res := dbUpsertRow db.kafkaStreamsInfo db.nextId now sid p
  let fresh := if (db.kafkaStreamsInfo.find? (fun r => r.serviceId == sid)).isSome
    then db.nextId else db.nextId + 1
  (res.1, { db with kafkaStreamsInfo := res.2, nextId := fresh })

/-- DatabaseStorage.getServicesByCategories: empty permitted set ⇒ `[]`;
otherwise filters on `categoryIds[0]` only ("Simplified for now"). -/
def DbState.getServicesByCategories (db : DbState) (categoryIds : List Nat) :
    List Service :=
  match categoryIds with
  | [] => []
  | c :: _ => db.services.filter (fun s => s.categoryId == c)

/-- A service joined with its dependent rows and category. -/
structure DbServiceWithDetails where
  service : Service
  healthData : Option (Stored HealthPayload)
  serviceInfo : Option (Stored InfoPayload)
  kafkaStreamsInfo : Option (Stored KafkaPayload)
  category : Option Category
deriving DecidableEq, Repr

/-- DatabaseStorage.getServicesWithDetails(categoryIds?):
`if (categoryIds && categoryIds.length > 0)` filter on `categoryIds[0]`
("Simplified for now"), else *all* services — also when the caller passes
an empty permitted set. -/
def DbState.getServicesWithDetails (db : DbState) (categoryIds : Option (List Nat)) :
    List DbServiceWithDetails :=
  let allServices : List Service := match categoryIds with
    | some (c :: _) => db.services.filter (fun s => s.categoryId == c)
    | _ => db.services
  allServices.map (fun s =>
    ⟨s, db.healthData.find? (fun r => r.serviceId == s.id),
      db.serviceInfo.find? (fun r => r.serviceId == s.id),
      db.kafkaStreamsInfo.find? (fun r => r.serviceId == s.id),
      db.categories.find? (fun c => c.id == s.categoryId)⟩)

/-- The status of a service's stored health row, as the summary loop reads
it (`healthDataResult?.status`). -/
def DbState.statusOf (db : DbState) (s : Service) : Option String :=
  (db.healthData.find? (fun r => r.serviceId == s.id)).map (fun r => r.payload.status)

/-- The counting loop of DatabaseStorage.getHealthSummary over the selected
service list: healthy/unhealthy by per-service health-row lookup, unknown by
subtraction. -/
def dbSummaryOver (db : DbState) (now : Nat) (allServices : List Service) : HealthSummary :=
  let totalServices : Int := allServices.length
  let healthyServices : Int :=
    (allServices.filter (fun s => db.statusOf s == some "UP")).length
  let unhealthyServices : Int :=
    (allServices.filter (fun s => db.statusOf s == some "DOWN")).length
  ⟨totalServices, healthyServices, unhealthyServices,
    totalServices - healthyServices - unhealthyServices, now⟩

/-- DatabaseStorage.getHealthSummary(categoryIds?): same service-set choice
as getServicesWithDetails (`categoryIds[0]` when nonempty, else all);
healthy/unhealthy are counted by looking up each selected service's health
row. -/
def DbState.getHealthSummary (db : DbState) (now : Nat)
    (categoryIds : Option (List Nat)) : HealthSummary :=
  let allServices : List Service := match categoryIds with
    | some (c :: _) => db.services.filter (fun s => s.categoryId == c)
    | _ => db.services
  dbSummaryOver db now allServices

/-- The authenticated caller as seen by the GET /api/services handler:
role plus permitted categories (from getUserWithPermissions). -/
structure Caller where
  role : String
  categories : List Category
deriving DecidableEq, Repr

/-- GET /api/services: admins get the unfiltered listing; any other role is
given `getServicesWithDetails(categoryIds)` over its permitted category ids. -/
def servicesForCaller (db : DbState) (user : Caller) : List DbServiceWithDetails :=
  if user.role = "admin" then db.getServicesWithDetails none
  else db.getServicesWithDetails (some (user.categories.map (fun c => c.id)))

/-- Sequences of DatabaseStorage operations, for reachability. -/
inductive DbOp where
  | create (now : Nat) (ins : InsertService)
  | update (now : Nat) (id : Nat) (u : UpdateService)
  | delete (id : Nat)
  | upsertHealth (now : Nat) (sid : Nat) (p : HealthPayload)
  | upsertInfo (now : Nat) (sid : Nat) (p : InfoPayload)
  | upsertKafka (now : Nat) (sid : Nat) (p : KafkaPayload)
deriving DecidableEq, Repr

def DbState.applyOp (db : DbState) : DbOp → DbState
  | .create now ins => (db.createService now ins).2
  | .update now id u => (db.updateService now id u).2
  | .delete id => (db.deleteService id).2
  | .upsertHealth now sid p => (db.upsertHealthData now sid p).2
  | .upsertInfo now sid p => (db.upsertServiceInfo now sid p).2
  | .upsertKafka now sid p => (db.upsertKafkaStreamsInfo now sid p).2

def DbState.run (ops : List DbOp) : DbState :=
  ops.foldl DbState.applyOp DbState.init

/-- Well-formedness of one dependent-record map: every value records its own
key as id, keys are unique, at most one record per serviceId, and every key
was drawn from the fresh-id source. -/
def MapInv {α : Type} (m : List (Nat × Stored α)) (bound : Nat) : Prop :=
  (∀ x ∈ m, x.2.id = x.1) ∧ (m.map (·.1)).Nodup ∧
    (m.map (fun x => x.2.serviceId)).Nodup ∧ (∀ x ∈ m, x.1 < bound)

/-- Well-formedness of the whole in-memory store. -/
def MemInv (st : MemStorage) : Prop :=
  (∀ x ∈ st.services, x.2.id = x.1) ∧ (st.services.map (·.1)).Nodup ∧
    (∀ x ∈ st.services, x.1 < st.nextId) ∧
    MapInv st.healthData st.nextId ∧ MapInv st.serviceInfo st.nextId ∧
    MapInv st.kafkaStreamsInfo st.nextId

instance decidableMapInv {α : Type} [DecidableEq α] (m : List (Nat × Stored α))
    (bound : Nat) : Decidable (MapInv m bound) := by
  unfold MapInv
  infer_instance

instance decidableMemInv (st : MemStorage) : Decidable (MemInv st) := by
  unfold MemInv
  infer_instance

/-- "This service's health outcome has been recorded for this cycle":
some record with its serviceId, the classified payload, and this cycle's
timestamp. -/
def healthWrittenAt (st : MemStorage) (now sid : Nat)
    (outcomes : Nat → ProbeOutcome) : Prop :=
  ∃ i, st.getHealthDataByServiceId sid
    = some ⟨i, sid, normHealth (healthInsertOf (outcomes sid).health), now⟩

/-- Replaying the same health upsert at successive timestamps. -/
def MemStorage.iterHealth (sid : Nat) (p : HealthPayload) :
    List Nat → MemStorage → MemStorage
  | [], st => st
  | t :: ts, st => MemStorage.iterHealth sid p ts (st.upsertHealthData t sid p).2

/-! ### DatabaseStorage invariant: one row per serviceId -/

def DbInv (db : DbState) : Prop :=
  (db.healthData.map (·.serviceId)).Nodup ∧
    (db.serviceInfo.map (·.serviceId)).Nodup ∧
    (db.kafkaStreamsInfo.map (·.serviceId)).Nodup

/-- Replaying the same info upsert at successive timestamps. -/
def MemStorage.iterInfo (sid : Nat) (p : InfoPayload) :
    List Nat → MemStorage → MemStorage
  | [], st => st
  | t :: ts, st => MemStorage.iterInfo sid p ts (st.upsertServiceInfo t sid p).2

/-- Replaying the same kafka upsert at successive timestamps. -/
def MemStorage.iterKafka (sid : Nat) (p : KafkaPayload) :
    List Nat → MemStorage → MemStorage
  | [], st => st
  | t :: ts, st => MemStorage.iterKafka sid p ts (st.upsertKafkaStreamsInfo t sid p).2

/-! ### Records per (serviceId, kind) -/

def MemStorage.healthCount (st : MemStorage) (sid : Nat) : Nat :=
  ((mapValues st.healthData).filter (fun r => r.serviceId == sid)).length

def MemStorage.infoCount (st : MemStorage) (sid : Nat) : Nat :=
  ((mapValues st.serviceInfo).filter (fun r => r.serviceId == sid)).length

def MemStorage.kafkaCount (st : MemStorage) (sid : Nat) : Nat :=
  ((mapValues st.kafkaStreamsInfo).filter (fun r => r.serviceId == sid)).length

def DbState.healthCount (db : DbState) (sid : Nat) : Nat :=
  (db.healthData.filter (fun r => r.serviceId == sid)).length

def DbState.infoCount (db : DbState) (sid : Nat) : Nat :=
  (db.serviceInfo.filter (fun r => r.serviceId == sid)).length

def DbState.kafkaCount (db : DbState) (sid : Nat) : Nat :=
  (db.kafkaStreamsInfo.filter (fun r => r.serviceId == sid)).length

def oC3 : ProbeOutcome := ⟨.response 200 (some ⟨some "UP", none⟩), .failure, .failure⟩

def stC5w : MemStorage :=
  MemStorage.run [.create 0 ⟨"auth-service", "http://a", 1⟩, .upsertHealth 1 0 ⟨"UP", none⟩]

def opsC5 : List StoreOp :=
  [.create 0 ⟨"auth-service", "http://a", 1⟩, .upsertHealth 1 0 ⟨"UP", none⟩, .delete 0]

def stC6 : MemStorage := MemStorage.run
  [.create 0 ⟨"auth-service", "http://a", 1⟩, .upsertHealth 1 0 ⟨"UP", none⟩,
    .upsertInfo 1 0 ⟨some "1.0.0", some "main", some "2024-01-01"⟩,
    .upsertKafka 1 0 ⟨some "RUNNING", some "4", some "t1, t2", some "8"⟩]

def dbC6 : DbState := DbState.run
  [.create 0 ⟨"auth-service", "http://a", 1⟩, .upsertHealth 1 0 ⟨"UP", none⟩]

def opsC7 : List StoreOp :=
  [.create 0 ⟨"auth-service", "http://a", 1⟩, .create 0 ⟨"pay-service", "http://b", 2⟩]

def outsC7 : Nat → ProbeOutcome := fun sid =>
  if sid = 0 then ⟨.failure, .failure, .failure⟩
  else ⟨.response 200 (some ⟨some "UP", none⟩), .failure, .failure⟩

def svcC7 : Service := ⟨1, "pay-service", "http://b", 2, 0, 0⟩

def stC8 : MemStorage := MemStorage.run [.create 0 ⟨"auth-service", "http://a", 1⟩]

def outsC8 : Nat → ProbeOutcome := fun _ => ⟨.failure, .failure, .failure⟩

def rC8 : Stored HealthPayload := ⟨1, 0, ⟨"DOWN", none⟩, 4⟩

def oC9w : ProbeOutcome := ⟨.response 200 (some ⟨some "UP", none⟩), .failure,
  .response 200 (some ⟨some "RUNNING", some 4, some ["t1"], some 2⟩)⟩

def oC9 : ProbeOutcome := ⟨.response 200 (some ⟨some "UP", none⟩), .failure,
  .response 200 (some ⟨some "RUNNING", some 0, some ["t1", "t2"], some 3⟩)⟩

def dbC2 : DbState := DbState.run
  [.create 0 ⟨"auth-service", "http://a", 1⟩, .create 0 ⟨"pay-service", "http://b", 2⟩]

def viewerEmptyC2 : Caller := ⟨"viewer", []⟩

def viewerBothC2 : Caller := ⟨"viewer", [⟨1, "cat1", none⟩, ⟨2, "cat2", none⟩]⟩

/-! ## Proofs -/

/-! ### Lemmas about the JS-map model -/

theorem mapValues_append {β : Type} (m₁ m₂ : List (Nat × β)) :
    mapValues (m₁ ++ m₂) = mapValues m₁ ++ mapValues m₂ := by
  simp [mapValues]

theorem mapSet_of_forall_ne {β : Type} (m : List (Nat × β)) (k : Nat) (v : β)
    (h : ∀ e ∈ m, e.1 ≠ k) : mapSet m k v = m ++ [(k, v)] := by
  induction m with
  | nil => rfl
  | cons e rest ih =>
      have he : e.1 ≠ k := h e (by simp)
      simp [mapSet, he, ih (fun x hx => h x (by simp [hx]))]

theorem mem_mapValues_mapSet {β : Type} (m : List (Nat × β)) (k : Nat) (v w : β)
    (h : w ∈ mapValues (mapSet m k v)) : w ∈ mapValues m ∨ w = v := by
  induction m with
  | nil =>
      simp [mapSet, mapValues] at h
      exact Or.inr h
  | cons e rest ih =>
      by_cases hk : e.1 = k
      · simp only [mapSet, if_pos hk, mapValues, List.map_cons, List.mem_cons] at h ⊢
        rcases h with h | h
        · exact Or.inr h
        · exact Or.inl (Or.inr h)
      · simp only [mapSet, if_neg hk, mapValues, List.map_cons, List.mem_cons] at h ⊢
        rcases h with h | h
        · exact Or.inl (Or.inl h)
        · rcases ih h with h' | h'
          · exact Or.inl (Or.inr h')
          · exact Or.inr h'

theorem mem_mapSet {β : Type} (m : List (Nat × β)) (k : Nat) (v : β) :
    ∀ x ∈ mapSet m k v, x ∈ m ∨ x = (k, v) := by
  induction m with
  | nil => intro x hx; simp [mapSet] at hx; exact Or.inr hx
  | cons e rest ih =>
      intro x hx
      by_cases hk : e.1 = k
      · simp only [mapSet, if_pos hk, List.mem_cons] at hx
        rcases hx with hx | hx
        · exact Or.inr hx
        · exact Or.inl (List.mem_cons_of_mem _ hx)
      · simp only [mapSet, if_neg hk, List.mem_cons] at hx
        rcases hx with hx | hx
        · exact Or.inl (by simp [hx])
        · rcases ih x hx with h' | h'
          · exact Or.inl (List.mem_cons_of_mem _ h')
          · exact Or.inr h'

theorem mapSet_map_fst {β : Type} (m : List (Nat × β)) (k : Nat) (v : β) :
    (mapSet m k v).map (·.1) =
      if k ∈ m.map (·.1) then m.map (·.1) else m.map (·.1) ++ [k] := by
  induction m with
  | nil => simp [mapSet]
  | cons e rest ih =>
      by_cases hk : e.1 = k
      · simp [mapSet, hk]
      · have : (k ∈ e.1 :: rest.map (·.1)) = (k ∈ rest.map (·.1)) := by
          simp [List.mem_cons, (Ne.symm hk)]
        by_cases hm : k ∈ rest.map (·.1)
        · simp [mapSet, hk, ih, hm, Ne.symm hk]
        · simp [mapSet, hk, ih, hm, Ne.symm hk]

theorem recFor_cons {α : Type} (k : Nat) (r : Stored α)
    (m : List (Nat × Stored α)) (sid : Nat) :
    recFor ((k, r) :: m) sid = if r.serviceId = sid then some r else recFor m sid := by
  by_cases h : r.serviceId = sid
  · simp [recFor, mapValues, h]
  · simp [recFor, mapValues, h]

theorem recFor_eq_none_iff {α : Type} {m : List (Nat × Stored α)} {sid : Nat} :
    recFor m sid = none ↔ ∀ r ∈ mapValues m, r.serviceId ≠ sid := by
  simp [recFor, List.find?_eq_none]

/-- Replacing the record found for `sid` at its own key: effect on lookups,
keys, serviceIds and the key-is-id invariant. -/
theorem mapSet_replace_props {α : Type} (sid : Nat) (q : α) (now : Nat) :
    ∀ (m : List (Nat × Stored α)) (e : Stored α),
      (∀ x ∈ m, x.2.id = x.1) → (m.map (·.1)).Nodup →
      recFor m sid = some e →
      (recFor (mapSet m e.id ⟨e.id, sid, q, now⟩) sid = some ⟨e.id, sid, q, now⟩) ∧
      (∀ sid', sid' ≠ sid →
        recFor (mapSet m e.id ⟨e.id, sid, q, now⟩) sid' = recFor m sid') ∧
      ((mapSet m e.id ⟨e.id, sid, q, now⟩).map (·.1) = m.map (·.1)) ∧
      ((mapSet m e.id ⟨e.id, sid, q, now⟩).map (fun x => x.2.serviceId)
        = m.map (fun x => x.2.serviceId)) ∧
      (∀ x ∈ mapSet m e.id ⟨e.id, sid, q, now⟩, x.2.id = x.1) := by
  intro m
  induction m with
  | nil => intro e _ _ hfind; simp [recFor, mapValues] at hfind
  | cons hd rest ih =>
      intro e hid hkeys hfind
      obtain ⟨k₀, v₀⟩ := hd
      have hid0 : v₀.id = k₀ := hid (k₀, v₀) (by simp)
      rw [recFor_cons] at hfind
      by_cases hv : v₀.serviceId = sid
      · rw [if_pos hv] at hfind
        have he : e = v₀ := by injection hfind with h; exact h.symm
        subst he
        have hkey : k₀ = e.id := hid0.symm
        have hset : mapSet ((k₀, e) :: rest) e.id (⟨e.id, sid, q, now⟩ : Stored α)
            = (e.id, (⟨e.id, sid, q, now⟩ : Stored α)) :: rest := by
          simp [mapSet, hkey]
        refine ⟨?_, ?_, ?_, ?_, ?_⟩
        · rw [hset, recFor_cons]; simp
        · intro sid' hsid'
          rw [hset, recFor_cons, recFor_cons]
          rw [if_neg (show ¬((⟨e.id, sid, q, now⟩ : Stored α).serviceId = sid') from
            fun h => hsid' h.symm)]
          rw [if_neg (show ¬(e.serviceId = sid') from fun h => hsid' (h.symm.trans hv))]
        · rw [hset]; simp [hkey]
        · rw [hset]; simp [hv]
        · intro x hx
          rw [hset] at hx
          rcases List.mem_cons.mp hx with hx | hx
          · simp [hx]
          · exact hid x (List.mem_cons_of_mem _ hx)
      · rw [if_neg hv] at hfind
        have hmem : e ∈ mapValues rest := by
          exact List.mem_of_find?_eq_some hfind
        have heid : e.id ∈ rest.map (·.1) := by
          simp only [mapValues, List.mem_map] at hmem
          obtain ⟨x, hx, rfl⟩ := hmem
          have := hid x (List.mem_cons_of_mem _ hx)
          simp only [this]
          exact List.mem_map_of_mem _ hx
        have hk₀ : k₀ ∉ rest.map (·.1) := by
          simp only [List.map_cons, List.nodup_cons] at hkeys
          exact hkeys.1
        have hne : k₀ ≠ e.id := fun h => hk₀ (h ▸ heid)
        have ihres := ih e (fun x hx => hid x (List.mem_cons_of_mem _ hx))
          (by simp only [List.map_cons, List.nodup_cons] at hkeys; exact hkeys.2) hfind
        obtain ⟨ih1, ih2, ih3, ih4, ih5⟩ := ihres
        refine ⟨?_, ?_, ?_, ?_, ?_⟩
        · simp only [mapSet, if_neg hne]
          rw [recFor_cons, if_neg hv, ih1]
        · intro sid' hsid'
          simp only [mapSet, if_neg hne]
          rw [recFor_cons, recFor_cons]
          by_cases hv' : v₀.serviceId = sid'
          · simp [hv']
          · rw [if_neg hv', if_neg hv', ih2 sid' hsid']
        · simp only [mapSet, if_neg hne, List.map_cons, ih3]
        · simp only [mapSet, if_neg hne, List.map_cons, ih4]
        · intro x hx
          simp only [mapSet, if_neg hne, List.mem_cons] at hx
          rcases hx with hx | hx
          · exact hx ▸ hid (k₀, v₀) (by simp)
          · exact ih5 x hx

theorem MapInv.mono {α : Type} {m : List (Nat × Stored α)} {b b' : Nat}
    (h : MapInv m b) (hb : b ≤ b') : MapInv m b' :=
  ⟨h.1, h.2.1, h.2.2.1, fun x hx => lt_of_lt_of_le (h.2.2.2 x hx) hb⟩

theorem upsertStored_of_existing {α : Type} (norm : α → α)
    (m : List (Nat × Stored α)) (fresh now sid : Nat) (p : α) (e : Stored α)
    (hfind : recFor m sid = some e) :
    upsertStored norm m fresh now sid p
      = (⟨e.id, sid, norm p, now⟩, mapSet m e.id ⟨e.id, sid, norm p, now⟩) := by
  simp [upsertStored, hfind]

theorem upsertStored_of_none {α : Type} (norm : α → α)
    (m : List (Nat × Stored α)) (fresh now sid : Nat) (p : α)
    (hfind : recFor m sid = none) (hfresh : ∀ x ∈ m, x.1 ≠ fresh) :
    upsertStored norm m fresh now sid p
      = (⟨fresh, sid, norm p, now⟩, m ++ [(fresh, ⟨fresh, sid, norm p, now⟩)]) := by
  simp [upsertStored, hfind, mapSet_of_forall_ne _ _ _ hfresh]

theorem recFor_append_single {α : Type} (m : List (Nat × Stored α))
    (k : Nat) (r : Stored α) (sid : Nat) :
    recFor (m ++ [(k, r)]) sid
      = (recFor m sid).or (if r.serviceId = sid then some r else none) := by
  by_cases h : r.serviceId = sid
  · simp [recFor, mapValues_append, List.find?_append, mapValues, h]
  · simp [recFor, mapValues_append, List.find?_append, mapValues, h]

/-- After an upsert the record found for `sid` is exactly the record the
upsert returned. -/
theorem upsertStored_recFor_self {α : Type} (norm : α → α)
    {m : List (Nat × Stored α)} {bound : Nat} (hinv : MapInv m bound)
    (now sid : Nat) (p : α) :
    recFor (upsertStored norm m bound now sid p).2 sid
      = some (upsertStored norm m bound now sid p).1 := by
  obtain ⟨hid, hkeys, hsids, hbound⟩ := hinv
  cases hfind : recFor m sid with
  | some e =>
      rw [upsertStored_of_existing norm m bound now sid p e hfind]
      exact (mapSet_replace_props sid (norm p) now m e hid hkeys hfind).1
  | none =>
      rw [upsertStored_of_none norm m bound now sid p hfind
        (fun x hx h => absurd (h ▸ hbound x hx) (lt_irrefl bound))]
      rw [recFor_append_single, hfind]
      simp

/-- An upsert for `sid` does not disturb the record found for any other
serviceId. -/
theorem upsertStored_recFor_frame {α : Type} (norm : α → α)
    {m : List (Nat × Stored α)} {bound : Nat} (hinv : MapInv m bound)
    (now sid : Nat) (p : α) (sid' : Nat) (hs : sid' ≠ sid) :
    recFor (upsertStored norm m bound now sid p).2 sid' = recFor m sid' := by
  obtain ⟨hid, hkeys, hsids, hbound⟩ := hinv
  cases hfind : recFor m sid with
  | some e =>
      rw [upsertStored_of_existing norm m bound now sid p e hfind]
      exact (mapSet_replace_props sid (norm p) now m e hid hkeys hfind).2.1 sid' hs
  | none =>
      rw [upsertStored_of_none norm m bound now sid p hfind
        (fun x hx h => absurd (h ▸ hbound x hx) (lt_irrefl bound))]
      rw [recFor_append_single, if_neg (fun h => hs h.symm)]
      cases recFor m sid' <;> rfl

/-- Upserting with the fresh-id source preserves the map invariant (at the
possibly advanced bound). -/
theorem upsertStored_mapInv {α : Type} (norm : α → α)
    {m : List (Nat × Stored α)} {bound : Nat} (hinv : MapInv m bound)
    (now sid : Nat) (p : α) :
    MapInv (upsertStored norm m bound now sid p).2
      (if (recFor m sid).isSome then bound else bound + 1) := by
  obtain ⟨hid, hkeys, hsids, hbound⟩ := hinv
  cases hfind : recFor m sid with
  | some e =>
      rw [upsertStored_of_existing norm m bound now sid p e hfind]
      obtain ⟨-, -, h3, h4, h5⟩ :=
        mapSet_replace_props sid (norm p) now m e hid hkeys hfind
      refine ⟨h5, h3 ▸ hkeys, h4 ▸ hsids, ?_⟩
      intro x hx
      have : x.1 ∈ (mapSet m e.id ⟨e.id, sid, norm p, now⟩).map (·.1) :=
        List.mem_map_of_mem _ hx
      rw [h3] at this
      obtain ⟨y, hy, hxy⟩ := List.mem_map.mp this
      simpa [hxy] using hbound y hy
  | none =>
      rw [upsertStored_of_none norm m bound now sid p hfind
        (fun x hx h => absurd (h ▸ hbound x hx) (lt_irrefl bound))]
      have hsid_not : sid ∉ m.map (fun x => x.2.serviceId) := by
        intro hmem
        obtain ⟨y, hy, hxy⟩ := List.mem_map.mp hmem
        exact (recFor_eq_none_iff.mp hfind y.2 (List.mem_map_of_mem _ hy)) hxy
      have hfresh_not : bound ∉ m.map (·.1) := by
        intro hmem
        obtain ⟨y, hy, hxy⟩ := List.mem_map.mp hmem
        exact absurd (hxy ▸ hbound y hy) (lt_irrefl bound)
      refine ⟨?_, ?_, ?_, ?_⟩
      · intro x hx
        rcases List.mem_append.mp hx with hx | hx
        · exact hid x hx
        · simp at hx; simp [hx]
      · rw [List.map_append, List.nodup_append]
        refine ⟨hkeys, List.nodup_singleton _, fun a ha hb => ?_⟩
        simp at hb
        exact hfresh_not (hb ▸ ha)
      · rw [List.map_append, List.nodup_append]
        refine ⟨hsids, List.nodup_singleton _, fun a ha hb => ?_⟩
        simp at hb
        exact hsid_not (hb ▸ ha)
      · intro x hx
        rcases List.mem_append.mp hx with hx | hx
        · exact lt_of_lt_of_le (hbound x hx) (Nat.le_succ bound)
        · simp at hx; simp [hx]

theorem mapGet_eq_some_mem {β : Type} {m : List (Nat × β)} {k : Nat} {v : β}
    (h : mapGet m k = some v) : (k, v) ∈ m := by
  unfold mapGet at h
  cases hf : m.find? (fun e => e.1 == k) with
  | none => rw [hf] at h; cases h
  | some e =>
      rw [hf] at h
      have hk : e.1 = k := by simpa using List.find?_some hf
      have hv : e.2 = v := by simpa using h
      have : e = (k, v) := by
        obtain ⟨a, b⟩ := e
        simp at hk hv
        simp [hk, hv]
      exact this ▸ List.mem_of_find?_eq_some hf

theorem mapInv_mapDelete {α : Type} {m : List (Nat × Stored α)} {bound : Nat}
    (h : MapInv m bound) (k : Nat) : MapInv (mapDelete m k) bound := by
  obtain ⟨h1, h2, h3, h4⟩ := h
  have hsub : List.Sublist (mapDelete m k) m := List.filter_sublist m
  refine ⟨fun x hx => h1 x (hsub.mem hx), ?_, ?_, fun x hx => h4 x (hsub.mem hx)⟩
  · exact (hsub.map (·.1)).nodup h2
  · exact (hsub.map (fun x => x.2.serviceId)).nodup h3

theorem memInv_init : MemInv MemStorage.init := by
  refine ⟨?_, ?_, ?_, ?_, ?_, ?_⟩ <;> simp [MemStorage.init, MapInv]

theorem MemInv.createService {st : MemStorage} (h : MemInv st)
    (now : Nat) (ins : InsertService) : MemInv (st.createService now ins).2 := by
  obtain ⟨hsid, hskeys, hsbound, hh, hi, hk⟩ := h
  have hfresh : ∀ e ∈ st.services, e.1 ≠ st.nextId :=
    fun e he heq => absurd (heq ▸ hsbound e he) (lt_irrefl _)
  unfold MemStorage.createService
  simp only
  rw [mapSet_of_forall_ne _ _ _ hfresh]
  have hfresh_not : st.nextId ∉ st.services.map (·.1) := by
    intro hmem
    obtain ⟨y, hy, hxy⟩ := List.mem_map.mp hmem
    exact hfresh y hy hxy
  refine ⟨?_, ?_, ?_, hh.mono (Nat.le_succ _), hi.mono (Nat.le_succ _),
    hk.mono (Nat.le_succ _)⟩
  · intro x hx
    rcases List.mem_append.mp hx with hx | hx
    · exact hsid x hx
    · simp at hx; simp [hx]
  · rw [List.map_append, List.nodup_append]
    refine ⟨hskeys, List.nodup_singleton _, fun a ha hb => ?_⟩
    simp at hb
    exact hfresh_not (hb ▸ ha)
  · intro x hx
    rcases List.mem_append.mp hx with hx | hx
    · exact lt_of_lt_of_le (hsbound x hx) (Nat.le_succ _)
    · simp at hx; simp [hx]

theorem MemInv.updateService {st : MemStorage} (h : MemInv st)
    (now id : Nat) (u : UpdateService) : MemInv (st.updateService now id u).2 := by
  obtain ⟨hsid, hskeys, hsbound, hh, hi, hk⟩ := h
  unfold MemStorage.updateService
  cases hget : mapGet st.services id with
  | none => exact ⟨hsid, hskeys, hsbound, hh, hi, hk⟩
  | some service =>
      have hmem : (id, service) ∈ st.services := mapGet_eq_some_mem hget
      have hsvc : service.id = id := hsid (id, service) hmem
      have hkeys_mem : id ∈ st.services.map (·.1) := by
        exact List.mem_map.mpr ⟨(id, service), hmem, rfl⟩
      simp only
      have hkeys_eq : ∀ v : Service,
          (mapSet st.services id v).map (·.1) = st.services.map (·.1) := by
        intro v
        rw [mapSet_map_fst, if_pos hkeys_mem]
      refine ⟨?_, ?_, ?_, hh, hi, hk⟩
      · intro x hx
        rcases mem_mapSet _ _ _ x hx with hx' | hx'
        · exact hsid x hx'
        · simp [hx', hsvc]
      · rw [hkeys_eq]; exact hskeys
      · intro x hx
        rcases mem_mapSet _ _ _ x hx with hx' | hx'
        · exact hsbound x hx'
        · have : x.1 = id := by simp [hx']
          rw [this]
          exact hsbound (id, service) hmem

theorem MemInv.deleteService {st : MemStorage} (h : MemInv st) (id : Nat) :
    MemInv (st.deleteService id).2 := by
  obtain ⟨hsid, hskeys, hsbound, hh, hi, hk⟩ := h
  have hsub : List.Sublist (mapDelete st.services id) st.services :=
    List.filter_sublist st.services
  exact ⟨fun x hx => hsid x (hsub.mem hx), (hsub.map (·.1)).nodup hskeys,
    fun x hx => hsbound x (hsub.mem hx),
    mapInv_mapDelete hh id, mapInv_mapDelete hi id, mapInv_mapDelete hk id⟩

theorem MemInv.upsertHealthData {st : MemStorage} (h : MemInv st)
    (now sid : Nat) (p : HealthPayload) : MemInv (st.upsertHealthData now sid p).2 := by
  obtain ⟨hsid, hskeys, hsbound, hh, hi, hk⟩ := h
  have hle : st.nextId ≤ (if (recFor st.healthData sid).isSome
      then st.nextId else st.nextId + 1) := by
    split <;> omega
  exact ⟨hsid, hskeys, fun x hx => lt_of_lt_of_le (hsbound x hx) hle,
    upsertStored_mapInv normHealth hh now sid p, hi.mono hle, hk.mono hle⟩

theorem MemInv.upsertServiceInfo {st : MemStorage} (h : MemInv st)
    (now sid : Nat) (p : InfoPayload) : MemInv (st.upsertServiceInfo now sid p).2 := by
  obtain ⟨hsid, hskeys, hsbound, hh, hi, hk⟩ := h
  have hle : st.nextId ≤ (if (recFor st.serviceInfo sid).isSome
      then st.nextId else st.nextId + 1) := by
    split <;> omega
  exact ⟨hsid, hskeys, fun x hx => lt_of_lt_of_le (hsbound x hx) hle,
    hh.mono hle, upsertStored_mapInv normInfo hi now sid p, hk.mono hle⟩

theorem MemInv.upsertKafkaStreamsInfo {st : MemStorage} (h : MemInv st)
    (now sid : Nat) (p : KafkaPayload) : MemInv (st.upsertKafkaStreamsInfo now sid p).2 := by
  obtain ⟨hsid, hskeys, hsbound, hh, hi, hk⟩ := h
  have hle : st.nextId ≤ (if (recFor st.kafkaStreamsInfo sid).isSome
      then st.nextId else st.nextId + 1) := by
    split <;> omega
  exact ⟨hsid, hskeys, fun x hx => lt_of_lt_of_le (hsbound x hx) hle,
    hh.mono hle, hi.mono hle, upsertStored_mapInv normKafka hk now sid p⟩

theorem memInv_applyOp {st : MemStorage} (h : MemInv st) (op : StoreOp) :
    MemInv (st.applyOp op) := by
  cases op with
  | create now ins => exact h.createService now ins
  | update now id u => exact h.updateService now id u
  | delete id => exact h.deleteService id
  | upsertHealth now sid p => exact h.upsertHealthData now sid p
  | upsertInfo now sid p => exact h.upsertServiceInfo now sid p
  | upsertKafka now sid p => exact h.upsertKafkaStreamsInfo now sid p

theorem memInv_foldl {st : MemStorage} (h : MemInv st) (ops : List StoreOp) :
    MemInv (ops.foldl MemStorage.applyOp st) := by
  induction ops generalizing st with
  | nil => exact h
  | cons op rest ih => exact ih (memInv_applyOp h op)

/-- Every store reachable by a sequence of storage operations is well-formed. -/
theorem memInv_run (ops : List StoreOp) : MemInv (MemStorage.run ops) :=
  memInv_foldl memInv_init ops

/-! ### Lemmas about the monitoring cycle -/

theorem upsertHealthData_fst (st : MemStorage) (now sid : Nat) (p : HealthPayload) :
    (st.upsertHealthData now sid p).1
      = (upsertStored normHealth st.healthData st.nextId now sid p).1 := rfl

theorem upsertHealthData_snd_healthData (st : MemStorage) (now sid : Nat) (p : HealthPayload) :
    ((st.upsertHealthData now sid p).2).healthData
      = (upsertStored normHealth st.healthData st.nextId now sid p).2 := rfl

theorem upsertServiceInfo_healthData (st : MemStorage) (now sid : Nat) (p : InfoPayload) :
    ((st.upsertServiceInfo now sid p).2).healthData = st.healthData := rfl

theorem upsertKafkaStreamsInfo_healthData (st : MemStorage) (now sid : Nat) (p : KafkaPayload) :
    ((st.upsertKafkaStreamsInfo now sid p).2).healthData = st.healthData := rfl

theorem upsertHealthData_serviceInfo (st : MemStorage) (now sid : Nat) (p : HealthPayload) :
    ((st.upsertHealthData now sid p).2).serviceInfo = st.serviceInfo := rfl

theorem upsertKafkaStreamsInfo_serviceInfo (st : MemStorage) (now sid : Nat) (p : KafkaPayload) :
    ((st.upsertKafkaStreamsInfo now sid p).2).serviceInfo = st.serviceInfo := rfl

theorem infoStep_healthData (st : MemStorage) (now sid : Nat) (ip : InfoProbe) :
    (infoStep st now sid ip).healthData = st.healthData := by
  cases ip with
  | failure => rfl
  | response s b =>
      simp only [infoStep]
      split
      · cases b <;> rfl
      · rfl

theorem infoStep_kafka (st : MemStorage) (now sid : Nat) (ip : InfoProbe) :
    (infoStep st now sid ip).kafkaStreamsInfo = st.kafkaStreamsInfo := by
  cases ip with
  | failure => rfl
  | response s b =>
      simp only [infoStep]
      split
      · cases b <;> rfl
      · rfl

theorem kafkaStep_healthData (st : MemStorage) (now sid : Nat) (kp : KafkaProbe) :
    (kafkaStep st now sid kp).healthData = st.healthData := by
  cases kp with
  | failure => rfl
  | response s b =>
      simp only [kafkaStep]
      split
      · cases b <;> rfl
      · rfl

theorem kafkaStep_serviceInfo (st : MemStorage) (now sid : Nat) (kp : KafkaProbe) :
    (kafkaStep st now sid kp).serviceInfo = st.serviceInfo := by
  cases kp with
  | failure => rfl
  | response s b =>
      simp only [kafkaStep]
      split
      · cases b <;> rfl
      · rfl

theorem infoStep_memInv {st : MemStorage} (h : MemInv st) (now sid : Nat)
    (ip : InfoProbe) : MemInv (infoStep st now sid ip) := by
  cases ip with
  | failure => exact h
  | response s b =>
      simp only [infoStep]
      split
      · cases b with
        | none => exact h
        | some body => exact h.upsertServiceInfo now sid (infoInsertOf body)
      · exact h

theorem kafkaStep_memInv {st : MemStorage} (h : MemInv st) (now sid : Nat)
    (kp : KafkaProbe) : MemInv (kafkaStep st now sid kp) := by
  cases kp with
  | failure => exact h
  | response s b =>
      simp only [kafkaStep]
      split
      · cases b with
        | none => exact h
        | some body => exact h.upsertKafkaStreamsInfo now sid (kafkaInsertOf body)
      · exact h

theorem monitorService_memInv {st : MemStorage} (h : MemInv st)
    (now sid : Nat) (o : ProbeOutcome) : MemInv (st.monitorService now sid o) := by
  unfold MemStorage.monitorService
  cases o.health with
  | failure => exact h.upsertHealthData now sid _
  | response s b =>
      exact kafkaStep_memInv (infoStep_memInv (h.upsertHealthData now sid _) now sid o.info)
        now sid o.kafka

theorem monitorService_healthData (st : MemStorage) (now sid : Nat) (o : ProbeOutcome) :
    (st.monitorService now sid o).healthData
      = ((st.upsertHealthData now sid (healthInsertOf o.health)).2).healthData := by
  unfold MemStorage.monitorService
  cases o.health with
  | failure => rfl
  | response s b => rw [kafkaStep_healthData, infoStep_healthData]

/-- After monitorService the stored health record for the probed service is
exactly the record the health upsert produced. -/
theorem monitorService_getHealth {st : MemStorage} (h : MemInv st)
    (now sid : Nat) (o : ProbeOutcome) :
    (st.monitorService now sid o).getHealthDataByServiceId sid
      = some ((st.upsertHealthData now sid (healthInsertOf o.health)).1) := by
  unfold MemStorage.getHealthDataByServiceId
  rw [monitorService_healthData, upsertHealthData_snd_healthData, upsertHealthData_fst]
  exact upsertStored_recFor_self normHealth h.2.2.2.1 now sid _

/-- monitorService does not disturb any other service's health record. -/
theorem monitorService_getHealth_frame {st : MemStorage} (h : MemInv st)
    (now sid : Nat) (o : ProbeOutcome) (sid' : Nat) (hs : sid' ≠ sid) :
    (st.monitorService now sid o).getHealthDataByServiceId sid'
      = st.getHealthDataByServiceId sid' := by
  unfold MemStorage.getHealthDataByServiceId
  rw [monitorService_healthData, upsertHealthData_snd_healthData]
  exact upsertStored_recFor_frame normHealth h.2.2.2.1 now sid _ sid' hs

theorem monitorService_establishes {st : MemStorage} (h : MemInv st)
    (now sid : Nat) (outcomes : Nat → ProbeOutcome) :
    healthWrittenAt (st.monitorService now sid (outcomes sid)) now sid outcomes :=
  ⟨_, monitorService_getHealth h now sid (outcomes sid)⟩

theorem monitorService_preserves {st : MemStorage} (h : MemInv st)
    (now sid sid₂ : Nat) (outcomes : Nat → ProbeOutcome)
    (hP : healthWrittenAt st now sid outcomes) :
    healthWrittenAt (st.monitorService now sid₂ (outcomes sid₂)) now sid outcomes := by
  by_cases heq : sid = sid₂
  · subst heq
    exact monitorService_establishes h now sid outcomes
  · obtain ⟨i, hi⟩ := hP
    exact ⟨i, (monitorService_getHealth_frame h now sid₂ (outcomes sid₂) sid heq).trans hi⟩

theorem monitorFold_preserves (now : Nat) (outcomes : Nat → ProbeOutcome) (sid : Nat) :
    ∀ (l : List Service) (acc : MemStorage), MemInv acc →
      healthWrittenAt acc now sid outcomes →
      healthWrittenAt
        (l.foldl (fun a s => a.monitorService now s.id (outcomes s.id)) acc)
        now sid outcomes := by
  intro l
  induction l with
  | nil => intro acc _ hP; exact hP
  | cons s rest ih =>
      intro acc hinv hP
      exact ih _ (monitorService_memInv hinv now s.id (outcomes s.id))
        (monitorService_preserves hinv now sid s.id outcomes hP)

theorem monitorFold_establishes (now : Nat) (outcomes : Nat → ProbeOutcome) :
    ∀ (l : List Service) (acc : MemStorage), MemInv acc →
      ∀ svc ∈ l,
        healthWrittenAt
          (l.foldl (fun a s => a.monitorService now s.id (outcomes s.id)) acc)
          now svc.id outcomes := by
  intro l
  induction l with
  | nil => intro acc _ svc hsvc; cases hsvc
  | cons s rest ih =>
      intro acc hinv svc hsvc
      rcases List.mem_cons.mp hsvc with rfl | hsvc'
      · exact monitorFold_preserves now outcomes svc.id rest _
          (monitorService_memInv hinv now svc.id (outcomes svc.id))
          (monitorService_establishes hinv now svc.id outcomes)
      · exact ih _ (monitorService_memInv hinv now s.id (outcomes s.id)) svc hsvc'

/-- Every registered service has its health outcome recorded by the cycle. -/
theorem monitorServices_writes_all {st : MemStorage} (h : MemInv st)
    (now : Nat) (outcomes : Nat → ProbeOutcome) :
    ∀ svc ∈ st.getAllServices,
      healthWrittenAt (st.monitorServices now outcomes) now svc.id outcomes := by
  intro svc hsvc
  exact monitorFold_establishes now outcomes st.getAllServices st h svc hsvc

/-! ### The classifier only produces UP or DOWN -/

theorem healthInsertOf_status (hp : HealthProbe) :
    (healthInsertOf hp).status = "UP" ∨ (healthInsertOf hp).status = "DOWN" := by
  cases hp with
  | failure => exact Or.inr rfl
  | response s b =>
      by_cases hc : s = 200 ∧ healthBodyStatus b = some "UP"
      · exact Or.inl (by simp [healthInsertOf, hc])
      · exact Or.inr (by simp [healthInsertOf, hc])

theorem mem_mapValues_upsertStored {α : Type} (norm : α → α)
    (m : List (Nat × Stored α)) (fresh now sid : Nat) (p : α) :
    ∀ r ∈ mapValues (upsertStored norm m fresh now sid p).2,
      r ∈ mapValues m ∨ r.payload = norm p := by
  intro r hr
  simp only [upsertStored] at hr
  rcases mem_mapValues_mapSet _ _ _ _ hr with h | h
  · exact Or.inl h
  · exact Or.inr (by rw [h])

theorem monitorService_healthValues (st : MemStorage) (now sid : Nat) (o : ProbeOutcome) :
    ∀ r ∈ mapValues (st.monitorService now sid o).healthData,
      r ∈ mapValues st.healthData
        ∨ r.payload.status = "UP" ∨ r.payload.status = "DOWN" := by
  intro r hr
  rw [monitorService_healthData, upsertHealthData_snd_healthData] at hr
  rcases mem_mapValues_upsertStored _ _ _ _ _ _ r hr with h | h
  · exact Or.inl h
  · right
    have : r.payload.status = (healthInsertOf o.health).status := by rw [h]; rfl
    rw [this]
    exact healthInsertOf_status o.health

theorem monitorFold_healthValues (now : Nat) (outcomes : Nat → ProbeOutcome) :
    ∀ (l : List Service) (acc : MemStorage),
      ∀ r ∈ mapValues
        ((l.foldl (fun a s => a.monitorService now s.id (outcomes s.id)) acc).healthData),
        r ∈ mapValues acc.healthData
          ∨ r.payload.status = "UP" ∨ r.payload.status = "DOWN" := by
  intro l
  induction l with
  | nil => intro acc r hr; exact Or.inl hr
  | cons s rest ih =>
      intro acc r hr
      rcases ih _ r hr with h | h
      · exact monitorService_healthValues acc now s.id (outcomes s.id) r h
      · exact Or.inr h

/-! ### Repeated identical upserts -/

theorem upsertHealthData_fst_of_existing (st : MemStorage) (now sid : Nat)
    (p : HealthPayload) (e : Stored HealthPayload)
    (hfind : recFor st.healthData sid = some e) :
    (st.upsertHealthData now sid p).1 = ⟨e.id, sid, normHealth p, now⟩ := by
  rw [upsertHealthData_fst,
    upsertStored_of_existing normHealth st.healthData st.nextId now sid p e hfind]

theorem upsertHealthData_getHealth {st : MemStorage} (h : MemInv st)
    (now sid : Nat) (p : HealthPayload) :
    ((st.upsertHealthData now sid p).2).getHealthDataByServiceId sid
      = some ((st.upsertHealthData now sid p).1) := by
  unfold MemStorage.getHealthDataByServiceId
  rw [upsertHealthData_snd_healthData, upsertHealthData_fst]
  exact upsertStored_recFor_self normHealth h.2.2.2.1 now sid p

theorem iterHealth_memInv (sid : Nat) (p : HealthPayload) :
    ∀ (ts : List Nat) (st : MemStorage), MemInv st →
      MemInv (MemStorage.iterHealth sid p ts st) := by
  intro ts
  induction ts with
  | nil => intro st h; exact h
  | cons t ts ih => intro st h; exact ih _ (h.upsertHealthData t sid p)

theorem iterHealth_getHealth (sid : Nat) (p : HealthPayload) :
    ∀ (ts : List Nat) (st : MemStorage), MemInv st →
      ∀ (i t₀ : Nat),
        st.getHealthDataByServiceId sid = some ⟨i, sid, normHealth p, t₀⟩ →
        (MemStorage.iterHealth sid p ts st).getHealthDataByServiceId sid
          = some ⟨i, sid, normHealth p, ts.getLastD t₀⟩ := by
  intro ts
  induction ts with
  | nil => intro st _ i t₀ h₀; exact h₀
  | cons t ts ih =>
      intro st hinv i t₀ h₀
      have hfind : recFor st.healthData sid = some ⟨i, sid, normHealth p, t₀⟩ := h₀
      have hfst := upsertHealthData_fst_of_existing st t sid p _ hfind
      have hget := upsertHealthData_getHealth hinv t sid p
      rw [hfst] at hget
      have := ih _ (hinv.upsertHealthData t sid p) i t hget
      rw [List.getLastD_cons]
      exact this

/-! ### Counting records per serviceId -/

theorem length_filter_le_one_of_nodup_map {γ : Type} (f : γ → Nat) (s : Nat) :
    ∀ (l : List γ), ((l.map f).Nodup) →
      (l.filter (fun x => f x == s)).length ≤ 1 := by
  intro l
  induction l with
  | nil => intro _; simp
  | cons a l ih =>
      intro h
      rw [List.map_cons, List.nodup_cons] at h
      by_cases ha : f a = s
      · have hempty : l.filter (fun x => f x == s) = [] := by
          rw [List.filter_eq_nil_iff]
          intro b hb
          simp only [beq_iff_eq]
          intro hbs
          exact h.1 (ha ▸ hbs ▸ List.mem_map_of_mem f hb)
        simp [List.filter_cons, ha, hempty]
      · simpa [List.filter_cons, ha] using ih h.2

theorem count_eq_one_of_recFor_some {α : Type} {m : List (Nat × Stored α)}
    {bound : Nat} (hinv : MapInv m bound) {sid : Nat} {r : Stored α}
    (h : recFor m sid = some r) :
    ((mapValues m).filter (fun x => x.serviceId == sid)).length = 1 := by
  have h' : (mapValues m).find? (fun x => x.serviceId == sid) = some r := h
  have hle : ((mapValues m).filter (fun x => x.serviceId == sid)).length ≤ 1 :=
    length_filter_le_one_of_nodup_map (fun x : Stored α => x.serviceId) sid
      (mapValues m) (by simpa [mapValues, List.map_map, Function.comp] using hinv.2.2.1)
  have hpr : (fun x : Stored α => x.serviceId == sid) r = true :=
    @List.find?_some (Stored α) (fun x => x.serviceId == sid) r (mapValues m) h'
  have hmem : r ∈ (mapValues m).filter (fun x => x.serviceId == sid) :=
    List.mem_filter.mpr ⟨List.mem_of_find?_eq_some h', hpr⟩
  have hpos : 0 < ((mapValues m).filter (fun x => x.serviceId == sid)).length :=
    List.length_pos.mpr (fun hnil => by simp [hnil] at hmem)
  omega

theorem dbUpsertRow_nodup {α : Type} {m : List (Stored α)}
    (h : (m.map (·.serviceId)).Nodup) (fresh now sid : Nat) (p : α) :
    (((dbUpsertRow m fresh now sid p).2).map (·.serviceId)).Nodup := by
  unfold dbUpsertRow
  cases hf : m.find? (fun r => r.serviceId == sid) with
  | some e =>
      simp only
      have : (m.map (fun r => if r.serviceId = sid then
          (⟨r.id, sid, p, now⟩ : Stored α) else r)).map (·.serviceId)
          = m.map (·.serviceId) := by
        rw [List.map_map]
        apply List.map_congr_left
        intro r _
        by_cases hr : r.serviceId = sid
        · simp [Function.comp, hr]
        · simp [Function.comp, hr]
      rw [this]
      exact h
  | none =>
      simp only
      rw [List.map_append, List.nodup_append]
      refine ⟨h, List.nodup_singleton _, fun a ha hb => ?_⟩
      simp at hb
      obtain ⟨y, hy, hxy⟩ := List.mem_map.mp ha
      rw [List.find?_eq_none] at hf
      exact hf y hy (by simpa [hxy] using hb)

theorem dbInv_init : DbInv DbState.init := by
  refine ⟨?_, ?_, ?_⟩ <;> simp [DbState.init]

theorem dbInv_applyOp {db : DbState} (h : DbInv db) (op : DbOp) :
    DbInv (db.applyOp op) := by
  obtain ⟨hh, hi, hk⟩ := h
  cases op with
  | create now ins => exact ⟨hh, hi, hk⟩
  | update now id u =>
      show DbInv (db.updateService now id u).2
      unfold DbState.updateService
      cases db.services.find? (fun s => s.id == id) with
      | none => exact ⟨hh, hi, hk⟩
      | some s => exact ⟨hh, hi, hk⟩
  | delete id =>
      refine ⟨?_, ?_, ?_⟩
      · exact ((List.filter_sublist _).map _).nodup hh
      · exact ((List.filter_sublist _).map _).nodup hi
      · exact ((List.filter_sublist _).map _).nodup hk
  | upsertHealth now sid p => exact ⟨dbUpsertRow_nodup hh _ _ _ _, hi, hk⟩
  | upsertInfo now sid p => exact ⟨hh, dbUpsertRow_nodup hi _ _ _ _, hk⟩
  | upsertKafka now sid p => exact ⟨hh, hi, dbUpsertRow_nodup hk _ _ _ _⟩

theorem dbInv_run (ops : List DbOp) : DbInv (DbState.run ops) := by
  suffices h : ∀ (l : List DbOp) (db : DbState), DbInv db →
      DbInv (l.foldl DbState.applyOp db) from h ops DbState.init dbInv_init
  intro l
  induction l with
  | nil => intro db h; exact h
  | cons op rest ih => intro db h; exact ih _ (dbInv_applyOp h op)

/-! ### Decimal rendering is never empty -/

theorem toDigitsCore_ne_nil (b : Nat) :
    ∀ (fuel n : Nat) (ds : List Char), ds ≠ [] →
      Nat.toDigitsCore b fuel n ds ≠ [] := by
  intro fuel
  induction fuel with
  | zero => intro n ds h; exact h
  | succ fuel ih =>
      intro n ds h
      unfold Nat.toDigitsCore
      by_cases hnb : n / b = 0
      · simp [hnb]
      · simpa [hnb] using ih (n / b) _ (by simp)

theorem toDigits_ne_nil (b n : Nat) : Nat.toDigits b n ≠ [] := by
  unfold Nat.toDigits
  unfold Nat.toDigitsCore
  by_cases hnb : n / b = 0
  · simp [hnb]
  · simpa [hnb] using toDigitsCore_ne_nil b n (n / b) _ (by simp)

theorem natRepr_ne_empty (n : Nat) : Nat.repr n ≠ "" := by
  intro h
  exact toDigits_ne_nil 10 n (congrArg String.data h)

theorem toString_int_ne_empty (n : Int) : toString n ≠ "" := by
  cases n with
  | ofNat m => exact natRepr_ne_empty m
  | negSucc m =>
      intro h
      have : ('-' :: (Nat.repr (m + 1)).data) = [] := congrArg String.data h
      simp at this

theorem jsOrNull_idem (o : Option String) : jsOrNull (jsOrNull o) = jsOrNull o := by
  cases o with
  | none => rfl
  | some s =>
      unfold jsOrNull
      split <;> simp_all [jsOrNull]

theorem jsOrNull_numToStringOrNull (o : Option Int) :
    jsOrNull (numToStringOrNull o) = numToStringOrNull o := by
  cases o with
  | none => rfl
  | some n =>
      unfold numToStringOrNull
      by_cases h : n = 0
      · simp [h, jsOrNull]
      · simp [h, jsOrNull, toString_int_ne_empty n]

/-- The kafka payload actually stored: the monitor-level conversion followed
by the storage layer's `|| null` on every field. -/
theorem normKafka_kafkaInsertOf (kb : KafkaBody) :
    normKafka (kafkaInsertOf kb) =
      ⟨jsOrNull kb.state, numToStringOrNull kb.threads,
        jsOrNull (kb.topics.map (fun ts => String.intercalate ", " ts)),
        numToStringOrNull kb.partitions⟩ := by
  unfold normKafka kafkaInsertOf
  simp only [jsOrNull_idem, jsOrNull_numToStringOrNull]

/-! ### Info / kafka upsert lookups and repeated upserts -/

theorem upsertServiceInfo_fst (st : MemStorage) (now sid : Nat) (p : InfoPayload) :
    (st.upsertServiceInfo now sid p).1
      = (upsertStored normInfo st.serviceInfo st.nextId now sid p).1 := rfl

theorem upsertServiceInfo_snd_serviceInfo (st : MemStorage) (now sid : Nat) (p : InfoPayload) :
    ((st.upsertServiceInfo now sid p).2).serviceInfo
      = (upsertStored normInfo st.serviceInfo st.nextId now sid p).2 := rfl

theorem upsertKafkaStreamsInfo_fst (st : MemStorage) (now sid : Nat) (p : KafkaPayload) :
    (st.upsertKafkaStreamsInfo now sid p).1
      = (upsertStored normKafka st.kafkaStreamsInfo st.nextId now sid p).1 := rfl

theorem upsertKafkaStreamsInfo_snd_kafka (st : MemStorage) (now sid : Nat) (p : KafkaPayload) :
    ((st.upsertKafkaStreamsInfo now sid p).2).kafkaStreamsInfo
      = (upsertStored normKafka st.kafkaStreamsInfo st.nextId now sid p).2 := rfl

theorem upsertServiceInfo_fst_of_existing (st : MemStorage) (now sid : Nat)
    (p : InfoPayload) (e : Stored InfoPayload)
    (hfind : recFor st.serviceInfo sid = some e) :
    (st.upsertServiceInfo now sid p).1 = ⟨e.id, sid, normInfo p, now⟩ := by
  rw [upsertServiceInfo_fst,
    upsertStored_of_existing normInfo st.serviceInfo st.nextId now sid p e hfind]

theorem upsertServiceInfo_getInfo {st : MemStorage} (h : MemInv st)
    (now sid : Nat) (p : InfoPayload) :
    ((st.upsertServiceInfo now sid p).2).getServiceInfoByServiceId sid
      = some ((st.upsertServiceInfo now sid p).1) := by
  unfold MemStorage.getServiceInfoByServiceId
  rw [upsertServiceInfo_snd_serviceInfo, upsertServiceInfo_fst]
  exact upsertStored_recFor_self normInfo h.2.2.2.2.1 now sid p

theorem upsertKafkaStreamsInfo_fst_of_existing (st : MemStorage) (now sid : Nat)
    (p : KafkaPayload) (e : Stored KafkaPayload)
    (hfind : recFor st.kafkaStreamsInfo sid = some e) :
    (st.upsertKafkaStreamsInfo now sid p).1 = ⟨e.id, sid, normKafka p, now⟩ := by
  rw [upsertKafkaStreamsInfo_fst,
    upsertStored_of_existing normKafka st.kafkaStreamsInfo st.nextId now sid p e hfind]

theorem upsertKafkaStreamsInfo_getKafka {st : MemStorage} (h : MemInv st)
    (now sid : Nat) (p : KafkaPayload) :
    ((st.upsertKafkaStreamsInfo now sid p).2).getKafkaStreamsInfoByServiceId sid
      = some ((st.upsertKafkaStreamsInfo now sid p).1) := by
  unfold MemStorage.getKafkaStreamsInfoByServiceId
  rw [upsertKafkaStreamsInfo_snd_kafka, upsertKafkaStreamsInfo_fst]
  exact upsertStored_recFor_self normKafka h.2.2.2.2.2 now sid p

theorem iterInfo_memInv (sid : Nat) (p : InfoPayload) :
    ∀ (ts : List Nat) (st : MemStorage), MemInv st →
      MemInv (MemStorage.iterInfo sid p ts st) := by
  intro ts
  induction ts with
  | nil => intro st h; exact h
  | cons t ts ih => intro st h; exact ih _ (h.upsertServiceInfo t sid p)

theorem iterKafka_memInv (sid : Nat) (p : KafkaPayload) :
    ∀ (ts : List Nat) (st : MemStorage), MemInv st →
      MemInv (MemStorage.iterKafka sid p ts st) := by
  intro ts
  induction ts with
  | nil => intro st h; exact h
  | cons t ts ih => intro st h; exact ih _ (h.upsertKafkaStreamsInfo t sid p)

theorem iterInfo_getInfo (sid : Nat) (p : InfoPayload) :
    ∀ (ts : List Nat) (st : MemStorage), MemInv st →
      ∀ (i t₀ : Nat),
        st.getServiceInfoByServiceId sid = some ⟨i, sid, normInfo p, t₀⟩ →
        (MemStorage.iterInfo sid p ts st).getServiceInfoByServiceId sid
          = some ⟨i, sid, normInfo p, ts.getLastD t₀⟩ := by
  intro ts
  induction ts with
  | nil => intro st _ i t₀ h₀; exact h₀
  | cons t ts ih =>
      intro st hinv i t₀ h₀
      have hfind : recFor st.serviceInfo sid = some ⟨i, sid, normInfo p, t₀⟩ := h₀
      have hfst := upsertServiceInfo_fst_of_existing st t sid p _ hfind
      have hget := upsertServiceInfo_getInfo hinv t sid p
      rw [hfst] at hget
      have := ih _ (hinv.upsertServiceInfo t sid p) i t hget
      rw [List.getLastD_cons]
      exact this

theorem iterKafka_getKafka (sid : Nat) (p : KafkaPayload) :
    ∀ (ts : List Nat) (st : MemStorage), MemInv st →
      ∀ (i t₀ : Nat),
        st.getKafkaStreamsInfoByServiceId sid = some ⟨i, sid, normKafka p, t₀⟩ →
        (MemStorage.iterKafka sid p ts st).getKafkaStreamsInfoByServiceId sid
          = some ⟨i, sid, normKafka p, ts.getLastD t₀⟩ := by
  intro ts
  induction ts with
  | nil => intro st _ i t₀ h₀; exact h₀
  | cons t ts ih =>
      intro st hinv i t₀ h₀
      have hfind : recFor st.kafkaStreamsInfo sid = some ⟨i, sid, normKafka p, t₀⟩ := h₀
      have hfst := upsertKafkaStreamsInfo_fst_of_existing st t sid p _ hfind
      have hget := upsertKafkaStreamsInfo_getKafka hinv t sid p
      rw [hfst] at hget
      have := ih _ (hinv.upsertKafkaStreamsInfo t sid p) i t hget
      rw [List.getLastD_cons]
      exact this

/-! ### The health classification, as an iff -/

theorem healthInsertOf_status_iff (hp : HealthProbe) :
    (healthInsertOf hp).status = "UP" ↔
      ∃ b, hp = .response 200 b ∧ healthBodyStatus b = some "UP" := by
  cases hp with
  | failure =>
      constructor
      · intro h; exact absurd h (by decide)
      · rintro ⟨b, hb, -⟩; cases hb
  | response s b =>
      by_cases hc : s = 200 ∧ healthBodyStatus b = some "UP"
      · constructor
        · intro _; exact ⟨b, by rw [hc.1], hc.2⟩
        · intro _; simp [healthInsertOf, hc]
      · constructor
        · intro h
          have hd : (healthInsertOf (.response s b)).status = "DOWN" := by
            simp [healthInsertOf, hc]
          rw [h] at hd
          exact absurd hd (by decide)
        · rintro ⟨b', hb', hst'⟩
          injection hb' with h1 h2
          exact absurd ⟨h1, h2 ▸ hst'⟩ hc

/-- The info sub-probe leaves the stored InfoRecords untouched whenever it
failed (threw) or came back non-200. -/
theorem infoStep_serviceInfo_of_fail (st : MemStorage) (now sid : Nat) (ip : InfoProbe)
    (h : ip = .failure ∨ ∃ si ib, ip = .response si ib ∧ si ≠ 200) :
    (infoStep st now sid ip).serviceInfo = st.serviceInfo := by
  rcases h with rfl | ⟨si, ib, rfl, hsi⟩
  · rfl
  · simp only [infoStep, if_neg hsi]

/-! ### Summary arithmetic helpers -/

theorem length_filter_add_length_filter_le {γ : Type} (p q : γ → Bool) :
    ∀ (l : List γ), (∀ x ∈ l, ¬(p x = true ∧ q x = true)) →
      (l.filter p).length + (l.filter q).length ≤ l.length := by
  intro l
  induction l with
  | nil => intro _; simp
  | cons a l ih =>
      intro h
      have ha := h a (List.mem_cons_self a l)
      have ihl := ih (fun x hx => h x (List.mem_cons_of_mem _ hx))
      cases hp : p a with
      | true =>
          cases hq : q a with
          | true => exact absurd ⟨hp, hq⟩ ha
          | false => simp only [List.filter_cons, hp, hq]; simp; omega
      | false =>
          cases hq : q a <;> (simp only [List.filter_cons, hp, hq]; simp; omega)

theorem length_le_of_nodup_subset {l₁ l₂ : List Nat} (h1 : l₁.Nodup)
    (hsub : ∀ x ∈ l₁, x ∈ l₂) : l₁.length ≤ l₂.length := by
  have hcard : l₁.toFinset.card = l₁.length := List.toFinset_card_of_nodup h1
  have hss : l₁.toFinset ⊆ l₂.toFinset := by
    intro x hx
    exact List.mem_toFinset.mpr (hsub x (List.mem_toFinset.mp hx))
  calc l₁.length = l₁.toFinset.card := hcard.symm
    _ ≤ l₂.toFinset.card := Finset.card_le_card hss
    _ ≤ l₂.length := l₂.toFinset_card_le

/-- MemStorage's summary: if every stored health record belongs to a
registered service and records are one-per-service, then
healthy + unhealthy cannot exceed the number of services. -/
theorem mem_summary_counts_le (st : MemStorage)
    (hown : ∀ r ∈ mapValues st.healthData, ∃ s ∈ st.getAllServices, s.id = r.serviceId)
    (hnodup : ((mapValues st.healthData).map (fun r => r.serviceId)).Nodup) :
    ((mapValues st.healthData).filter (fun h => h.payload.status == "UP")).length
      + ((mapValues st.healthData).filter (fun h => h.payload.status == "DOWN")).length
      ≤ st.services.length := by
  have hdisj : ∀ x ∈ mapValues st.healthData,
      ¬((x.payload.status == "UP") = true ∧ (x.payload.status == "DOWN") = true) := by
    intro x _ ⟨h1, h2⟩
    rw [beq_iff_eq] at h1 h2
    exact absurd (h1 ▸ h2) (by decide)
  have h1 := length_filter_add_length_filter_le _ _ (mapValues st.healthData) hdisj
  have h2 : (mapValues st.healthData).length ≤ st.services.length := by
    have hlen : ((mapValues st.healthData).map (fun r => r.serviceId)).length
        = (mapValues st.healthData).length := List.length_map _ _
    have hsub : ∀ x ∈ (mapValues st.healthData).map (fun r => r.serviceId),
        x ∈ (st.getAllServices).map (fun s => s.id) := by
      intro x hx
      obtain ⟨r, hr, rfl⟩ := List.mem_map.mp hx
      obtain ⟨s, hs, hsid⟩ := hown r hr
      exact List.mem_map.mpr ⟨s, hs, hsid⟩
    have := length_le_of_nodup_subset hnodup hsub
    rw [hlen] at this
    simpa [MemStorage.getAllServices, mapValues] using this
  omega

/-- DatabaseStorage's summary arithmetic holds over any selected service
list: the counting loop classifies each service at most once, so
healthy + unhealthy ≤ total and unknown is non-negative by construction. -/
theorem dbSummaryOver_identity_nonneg (db : DbState) (now : Nat) (l : List Service) :
    ((dbSummaryOver db now l).healthyServices + (dbSummaryOver db now l).unhealthyServices
        + (dbSummaryOver db now l).unknownServices = (dbSummaryOver db now l).totalServices)
      ∧ (dbSummaryOver db now l).unknownServices
          = (dbSummaryOver db now l).totalServices
            - (dbSummaryOver db now l).healthyServices
            - (dbSummaryOver db now l).unhealthyServices
      ∧ 0 ≤ (dbSummaryOver db now l).unknownServices := by
  have hdisj : ∀ s ∈ l, ¬((db.statusOf s == some "UP") = true
      ∧ (db.statusOf s == some "DOWN") = true) := by
    intro s _ ⟨h1, h2⟩
    rw [beq_iff_eq] at h1 h2
    have : (some "UP" : Option String) = some "DOWN" := h1 ▸ h2
    exact absurd this (by decide)
  have hle := length_filter_add_length_filter_le _ _ l hdisj
  have htot : (dbSummaryOver db now l).totalServices = (l.length : Int) := rfl
  have hh : (dbSummaryOver db now l).healthyServices
      = ((l.filter (fun s => db.statusOf s == some "UP")).length : Int) := rfl
  have hu : (dbSummaryOver db now l).unhealthyServices
      = ((l.filter (fun s => db.statusOf s == some "DOWN")).length : Int) := rfl
  have hunk : (dbSummaryOver db now l).unknownServices
      = (dbSummaryOver db now l).totalServices
        - (dbSummaryOver db now l).healthyServices
        - (dbSummaryOver db now l).unhealthyServices := rfl
  refine ⟨by rw [hunk]; ring, hunk, ?_⟩
  rw [hunk, htot, hh, hu]
  have hcast : ((l.filter (fun s => db.statusOf s == some "UP")).length : Int)
      + ((l.filter (fun s => db.statusOf s == some "DOWN")).length : Int)
      ≤ (l.length : Int) := by exact_mod_cast hle
  omega

theorem dbGetHealthSummary_eq (db : DbState) (now : Nat) (cids : Option (List Nat)) :
    ∃ l : List Service, db.getHealthSummary now cids = dbSummaryOver db now l := by
  rcases cids with _ | ⟨_ | ⟨c, cl⟩⟩
  · exact ⟨db.services, rfl⟩
  · exact ⟨db.services, rfl⟩
  · exact ⟨db.services.filter (fun s => s.categoryId == c), rfl⟩

/-! ### The kafka record written by a successful streams probe -/

theorem monitorService_getKafka {st : MemStorage} (hinv : MemInv st)
    (now sid : Nat) (o : ProbeOutcome) (hs : Nat) (hb : Option HealthBody)
    (kb : KafkaBody) (hh : o.health = .response hs hb)
    (hk : o.kafka = .response 200 (some kb)) :
    ∃ i, (st.monitorService now sid o).getKafkaStreamsInfoByServiceId sid
      = some ⟨i, sid, normKafka (kafkaInsertOf kb), now⟩ := by
  obtain ⟨oh, oi, ok⟩ := o
  simp only at hh hk
  subst hh
  subst hk
  unfold MemStorage.monitorService
  simp only [kafkaStep, if_pos rfl]
  have hinv2 : MemInv (infoStep
      ((st.upsertHealthData now sid (healthInsertOf (.response hs hb))).2) now sid oi) :=
    infoStep_memInv (hinv.upsertHealthData now sid _) now sid oi
  exact ⟨_, upsertKafkaStreamsInfo_getKafka hinv2 now sid (kafkaInsertOf kb)⟩

theorem memCount_le_one {α : Type} {m : List (Nat × Stored α)} {bound : Nat}
    (hinv : MapInv m bound) (sid : Nat) :
    ((mapValues m).filter (fun r => r.serviceId == sid)).length ≤ 1 :=
  length_filter_le_one_of_nodup_map _ sid (mapValues m)
    (by simpa [mapValues, List.map_map, Function.comp] using hinv.2.2.1)

/-! ## The claims -/

/-- C1: Health classification.  The HealthRecord upserted by the monitoring
cycle is always the one built from `healthInsertOf`, and its status is "UP"
iff the HTTP response status was exactly 200 and the decoded body's
top-level status field was "UP"; in every other case (transport failure,
timeout, non-200, malformed or missing body field) its status is "DOWN". -/
theorem C1_health_classification (st : MemStorage) (now sid : Nat) (o : ProbeOutcome) :
    ((st.monitorService now sid o).healthData
        = ((st.upsertHealthData now sid (healthInsertOf o.health)).2).healthData)
    ∧ (((st.upsertHealthData now sid (healthInsertOf o.health)).1).payload.status = "UP"
        ↔ ∃ b, o.health = .response 200 b ∧ healthBodyStatus b = some "UP")
    ∧ (((st.upsertHealthData now sid (healthInsertOf o.health)).1).payload.status = "UP"
        ∨ ((st.upsertHealthData now sid (healthInsertOf o.health)).1).payload.status = "DOWN") :=
  ⟨monitorService_healthData st now sid o,
    healthInsertOf_status_iff o.health, healthInsertOf_status o.health⟩

/-- C3: Soft-fail isolation.  When the health request returned (any HTTP
status) but the info probe failed (threw — timeout — or came back non-200),
monitorService still performs the health upsert, and the stored InfoRecords
are left completely unchanged. -/
theorem C3_info_softfail_isolation (st : MemStorage) (now sid : Nat) (o : ProbeOutcome)
    (s : Nat) (b : Option HealthBody) (hh : o.health = .response s b)
    (hi : o.info = .failure ∨ ∃ si ib, o.info = .response si ib ∧ si ≠ 200) :
    (st.monitorService now sid o).serviceInfo = st.serviceInfo
      ∧ (st.monitorService now sid o).healthData
          = ((st.upsertHealthData now sid (healthInsertOf o.health)).2).healthData := by
  refine ⟨?_, monitorService_healthData st now sid o⟩
  obtain ⟨oh, oi, ok⟩ := o
  simp only at hh hi
  subst hh
  show (kafkaStep (infoStep _ now sid oi) now sid ok).serviceInfo = st.serviceInfo
  rw [kafkaStep_serviceInfo, infoStep_serviceInfo_of_fail _ _ _ _ hi]
  rfl

/-- C3 witness: a concrete outcome with health 200/"UP" and a thrown info
probe. -/
theorem C3_witness :
    (oC3.health = .response 200 (some ⟨some "UP", none⟩))
    ∧ (oC3.info = .failure ∨ ∃ si ib, oC3.info = .response si ib ∧ si ≠ 200)
    ∧ ((MemStorage.init.monitorService 7 0 oC3).serviceInfo = MemStorage.init.serviceInfo
        ∧ (MemStorage.init.monitorService 7 0 oC3).healthData
            = ((MemStorage.init.upsertHealthData 7 0 (healthInsertOf oC3.health)).2).healthData) :=
  ⟨rfl, Or.inl rfl,
    C3_info_softfail_isolation MemStorage.init 7 0 oC3 200 (some ⟨some "UP", none⟩)
      rfl (Or.inl rfl)⟩

/-- C4: Upsert-replace and idempotence.  After any sequence of storage
operations either backend holds at most one Health/Info/StreamsRecord per
serviceId; and replaying an identical upsert any number of further times
leaves exactly one record per (serviceId, kind), equal to the first write
except for its timestamp, which becomes the last replay's. -/
theorem C4_upsert_replace_idempotent (ops : List StoreOp) (dbops : List DbOp)
    (sid : Nat) (hp : HealthPayload) (ip : InfoPayload) (kp : KafkaPayload)
    (t₀ : Nat) (ts : List Nat) :
    (MemStorage.run ops).healthCount sid ≤ 1
    ∧ (MemStorage.run ops).infoCount sid ≤ 1
    ∧ (MemStorage.run ops).kafkaCount sid ≤ 1
    ∧ (DbState.run dbops).healthCount sid ≤ 1
    ∧ (DbState.run dbops).infoCount sid ≤ 1
    ∧ (DbState.run dbops).kafkaCount sid ≤ 1
    ∧ ((MemStorage.iterHealth sid hp ts
          ((MemStorage.run ops).upsertHealthData t₀ sid hp).2).getHealthDataByServiceId sid
        = some { ((MemStorage.run ops).upsertHealthData t₀ sid hp).1 with
                  stamp := ts.getLastD t₀ }
      ∧ (MemStorage.iterHealth sid hp ts
          ((MemStorage.run ops).upsertHealthData t₀ sid hp).2).healthCount sid = 1)
    ∧ ((MemStorage.iterInfo sid ip ts
          ((MemStorage.run ops).upsertServiceInfo t₀ sid ip).2).getServiceInfoByServiceId sid
        = some { ((MemStorage.run ops).upsertServiceInfo t₀ sid ip).1 with
                  stamp := ts.getLastD t₀ }
      ∧ (MemStorage.iterInfo sid ip ts
          ((MemStorage.run ops).upsertServiceInfo t₀ sid ip).2).infoCount sid = 1)
    ∧ ((MemStorage.iterKafka sid kp ts
          ((MemStorage.run ops).upsertKafkaStreamsInfo t₀ sid kp).2).getKafkaStreamsInfoByServiceId sid
        = some { ((MemStorage.run ops).upsertKafkaStreamsInfo t₀ sid kp).1 with
                  stamp := ts.getLastD t₀ }
      ∧ (MemStorage.iterKafka sid kp ts
          ((MemStorage.run ops).upsertKafkaStreamsInfo t₀ sid kp).2).kafkaCount sid = 1) := by
  have hinv := memInv_run ops
  have hdb := dbInv_run dbops
  have hH := iterHealth_getHealth sid hp ts _ (hinv.upsertHealthData t₀ sid hp)
    (((MemStorage.run ops).upsertHealthData t₀ sid hp).1.id) t₀
    (upsertHealthData_getHealth hinv t₀ sid hp)
  have hI := iterInfo_getInfo sid ip ts _ (hinv.upsertServiceInfo t₀ sid ip)
    (((MemStorage.run ops).upsertServiceInfo t₀ sid ip).1.id) t₀
    (upsertServiceInfo_getInfo hinv t₀ sid ip)
  have hK := iterKafka_getKafka sid kp ts _ (hinv.upsertKafkaStreamsInfo t₀ sid kp)
    (((MemStorage.run ops).upsertKafkaStreamsInfo t₀ sid kp).1.id) t₀
    (upsertKafkaStreamsInfo_getKafka hinv t₀ sid kp)
  have hHinv := iterHealth_memInv sid hp ts _ (hinv.upsertHealthData t₀ sid hp)
  have hIinv := iterInfo_memInv sid ip ts _ (hinv.upsertServiceInfo t₀ sid ip)
  have hKinv := iterKafka_memInv sid kp ts _ (hinv.upsertKafkaStreamsInfo t₀ sid kp)
  refine ⟨memCount_le_one hinv.2.2.2.1 sid, memCount_le_one hinv.2.2.2.2.1 sid,
    memCount_le_one hinv.2.2.2.2.2 sid,
    length_filter_le_one_of_nodup_map _ sid _ hdb.1,
    length_filter_le_one_of_nodup_map _ sid _ hdb.2.1,
    length_filter_le_one_of_nodup_map _ sid _ hdb.2.2,
    ⟨hH, count_eq_one_of_recFor_some hHinv.2.2.2.1 hH⟩,
    ⟨hI, count_eq_one_of_recFor_some hIinv.2.2.2.2.1 hI⟩,
    ⟨hK, count_eq_one_of_recFor_some hKinv.2.2.2.2.2 hK⟩⟩

/-- C5 (amended): the summary identity holds for every store state of both
backends; `unknownServices` is non-negative in DatabaseStorage always, and
in MemStorage whenever every stored health record belongs to a registered
service (one record per service).  It is *not* non-negative for arbitrary
reachable MemStorage states — see the counterexample. -/
theorem C5_summary_arithmetic (st : MemStorage) (now : Nat) (db : DbState)
    (cids : Option (List Nat)) :
    ((st.getHealthSummary now).healthyServices + (st.getHealthSummary now).unhealthyServices
        + (st.getHealthSummary now).unknownServices = (st.getHealthSummary now).totalServices)
    ∧ ((st.getHealthSummary now).unknownServices
        = (st.getHealthSummary now).totalServices - (st.getHealthSummary now).healthyServices
          - (st.getHealthSummary now).unhealthyServices)
    ∧ ((∀ r ∈ mapValues st.healthData, ∃ s ∈ st.getAllServices, s.id = r.serviceId) →
        ((mapValues st.healthData).map (fun r => r.serviceId)).Nodup →
        0 ≤ (st.getHealthSummary now).unknownServices)
    ∧ ((db.getHealthSummary now cids).healthyServices
        + (db.getHealthSummary now cids).unhealthyServices
        + (db.getHealthSummary now cids).unknownServices
        = (db.getHealthSummary now cids).totalServices)
    ∧ 0 ≤ (db.getHealthSummary now cids).unknownServices := by
  have hunk : (st.getHealthSummary now).unknownServices
      = (st.getHealthSummary now).totalServices - (st.getHealthSummary now).healthyServices
        - (st.getHealthSummary now).unhealthyServices := rfl
  obtain ⟨l, hl⟩ := dbGetHealthSummary_eq db now cids
  obtain ⟨hdb1, -, hdb3⟩ := dbSummaryOver_identity_nonneg db now l
  refine ⟨by rw [hunk]; ring, hunk, ?_, by rw [hl]; exact hdb1, by rw [hl]; exact hdb3⟩
  intro hown hnodup
  have hle := mem_summary_counts_le st hown hnodup
  have htot : (st.getHealthSummary now).totalServices = (st.services.length : Int) := rfl
  have hh : (st.getHealthSummary now).healthyServices
      = (((mapValues st.healthData).filter (fun h => h.payload.status == "UP")).length : Int) :=
    rfl
  have hu : (st.getHealthSummary now).unhealthyServices
      = (((mapValues st.healthData).filter (fun h => h.payload.status == "DOWN")).length : Int) :=
    rfl
  rw [hunk, htot, hh, hu]
  have hcast : (((mapValues st.healthData).filter (fun h => h.payload.status == "UP")).length : Int)
      + (((mapValues st.healthData).filter (fun h => h.payload.status == "DOWN")).length : Int)
      ≤ (st.services.length : Int) := by exact_mod_cast hle
  omega

/-- C5 witness: a store where every health record belongs to a registered
service; the summary's unknown count is non-negative there. -/
theorem C5_witness :
    (∀ r ∈ mapValues stC5w.healthData, ∃ s ∈ stC5w.getAllServices, s.id = r.serviceId)
    ∧ ((mapValues stC5w.healthData).map (fun r => r.serviceId)).Nodup
    ∧ 0 ≤ (stC5w.getHealthSummary 2).unknownServices :=
  ⟨by decide, by decide,
    (C5_summary_arithmetic stC5w 2 DbState.init none).2.2.1 (by decide) (by decide)⟩

/-- C5 counterexample: register a service, record an UP health probe, then
delete the service.  MemStorage.deleteService fails to remove the health
record (it is keyed by its own generated id), so the summary over the
reached store computes unknownServices = 0 − 1 − 0 = −1 < 0, refuting
"never negative" for reachable states. -/
theorem C5_counterexample :
    ((MemStorage.run opsC5).getHealthSummary 2).unknownServices < 0 := by decide

/-- C6: MemStorage.deleteService deletes the dependent maps with the
*service* id, but those maps are keyed by each record's own generated id,
so all three dependent records survive the delete (orphans), while the
service itself is gone (a combined-view fetch 404s).  DatabaseStorage's
deleteService, which deletes by serviceId column, does cascade. -/
theorem C6_cascade_delete_bug :
    (stC6.deleteService 0).1 = true
    ∧ ((stC6.deleteService 0).2).getService 0 = none
    ∧ ((stC6.deleteService 0).2).getHealthDataByServiceId 0 ≠ none
    ∧ ((stC6.deleteService 0).2).getServiceInfoByServiceId 0 ≠ none
    ∧ ((stC6.deleteService 0).2).getKafkaStreamsInfoByServiceId 0 ≠ none
    ∧ ((stC6.deleteService 0).2).healthCount 0 = 1
    ∧ (dbC6.deleteService 0).1 = true
    ∧ ((dbC6.deleteService 0).2).healthCount 0 = 0 := by decide

/-- C7: Per-service isolation.  In any reachable store, the cycle writes a
health record (stamped with this cycle's time) for *every* registered
service, each classified from its own probe outcome; a service whose probe
threw is recorded as DOWN and does not prevent any sibling's record. -/
theorem C7_per_service_isolation (ops : List StoreOp) (now : Nat)
    (outcomes : Nat → ProbeOutcome) (svc : Service)
    (hm : svc ∈ (MemStorage.run ops).getAllServices) :
    ∃ i, ((MemStorage.run ops).monitorServices now outcomes).getHealthDataByServiceId svc.id
        = some ⟨i, svc.id, normHealth (healthInsertOf (outcomes svc.id).health), now⟩
      ∧ ((outcomes svc.id).health = .failure →
          (normHealth (healthInsertOf (outcomes svc.id).health)).status = "DOWN") := by
  obtain ⟨i, hi⟩ := monitorServices_writes_all (memInv_run ops) now outcomes svc hm
  exact ⟨i, hi, fun hfail => by rw [hfail]; rfl⟩

/-- C7 witness: service 0's probe throws, yet sibling service 1 still gets
its record for the cycle. -/
theorem C7_witness :
    svcC7 ∈ (MemStorage.run opsC7).getAllServices
    ∧ ∃ i, ((MemStorage.run opsC7).monitorServices 5 outsC7).getHealthDataByServiceId svcC7.id
        = some ⟨i, svcC7.id, normHealth (healthInsertOf (outsC7 svcC7.id).health), 5⟩
      ∧ ((outsC7 svcC7.id).health = .failure →
          (normHealth (healthInsertOf (outsC7 svcC7.id).health)).status = "DOWN") :=
  ⟨by decide, C7_per_service_isolation opsC7 5 outsC7 svcC7 (by decide)⟩

/-- C8: The cycle only ever writes UP or DOWN.  Any health record present
after a cycle either predates it or has status "UP"/"DOWN"; and the insert
the Probe Client builds never carries status "UNKNOWN". -/
theorem C8_never_writes_unknown (st : MemStorage) (now : Nat)
    (outcomes : Nat → ProbeOutcome) (r : Stored HealthPayload)
    (hr : r ∈ mapValues (st.monitorServices now outcomes).healthData) :
    (r ∈ mapValues st.healthData ∨ r.payload.status = "UP" ∨ r.payload.status = "DOWN")
    ∧ ∀ hp : HealthProbe, (healthInsertOf hp).status ≠ "UNKNOWN" := by
  constructor
  · exact monitorFold_healthValues now outcomes st.getAllServices st r hr
  · intro hp
    rcases healthInsertOf_status hp with h | h <;> rw [h] <;> decide

/-- C8 witness: the record written for the single service of a concrete
store. -/
theorem C8_witness :
    rC8 ∈ mapValues (stC8.monitorServices 4 outsC8).healthData
    ∧ ((rC8 ∈ mapValues stC8.healthData
          ∨ rC8.payload.status = "UP" ∨ rC8.payload.status = "DOWN")
        ∧ ∀ hp : HealthProbe, (healthInsertOf hp).status ≠ "UNKNOWN") :=
  ⟨by decide, C8_never_writes_unknown stC8 4 outsC8 rC8 (by decide)⟩

/-- C9 (amended): on a successful streams probe the upserted StreamsRecord
stores `state`/`threads`/`topics`/`partitions` through the JS truthiness
guards: a *nonzero* numeric value is stored as its string form, but 0 (being
falsy) is stored as null, not "0"; topics is the ", "-join of the array
(nulled by the storage layer when that join is empty); each field is
independently nullable. -/
theorem C9_streams_normalization (st : MemStorage) (now sid : Nat) (o : ProbeOutcome)
    (hs : Nat) (hb : Option HealthBody) (kb : KafkaBody)
    (hinv : MemInv st) (hh : o.health = .response hs hb)
    (hk : o.kafka = .response 200 (some kb)) :
    (∃ i, (st.monitorService now sid o).getKafkaStreamsInfoByServiceId sid
        = some ⟨i, sid,
            ⟨jsOrNull kb.state, numToStringOrNull kb.threads,
              jsOrNull (kb.topics.map (fun ts => String.intercalate ", " ts)),
              numToStringOrNull kb.partitions⟩, now⟩)
    ∧ (∀ n : Int, kb.threads = some n → n ≠ 0 →
        numToStringOrNull kb.threads = some (toString n))
    ∧ (kb.threads = some 0 → numToStringOrNull kb.threads = none)
    ∧ (∀ n : Int, kb.partitions = some n → n ≠ 0 →
        numToStringOrNull kb.partitions = some (toString n))
    ∧ (kb.partitions = some 0 → numToStringOrNull kb.partitions = none) := by
  refine ⟨?_, ?_, ?_, ?_, ?_⟩
  · obtain ⟨i, hi⟩ := monitorService_getKafka hinv now sid o hs hb kb hh hk
    refine ⟨i, ?_⟩
    rw [hi, normKafka_kafkaInsertOf]
  · intro n hn hnz; simp [numToStringOrNull, hn, hnz]
  · intro h0; simp [numToStringOrNull, h0]
  · intro n hn hnz; simp [numToStringOrNull, hn, hnz]
  · intro h0; simp [numToStringOrNull, h0]

/-- C9 witness: at a concrete successful streams probe. -/
theorem C9_witness :
    MemInv MemStorage.init
    ∧ oC9w.health = .response 200 (some ⟨some "UP", none⟩)
    ∧ oC9w.kafka = .response 200 (some ⟨some "RUNNING", some 4, some ["t1"], some 2⟩)
    ∧ ((∃ i, (MemStorage.init.monitorService 5 0 oC9w).getKafkaStreamsInfoByServiceId 0
        = some ⟨i, 0,
            ⟨jsOrNull (some "RUNNING"), numToStringOrNull (some 4),
              jsOrNull ((some ["t1"]).map (fun ts => String.intercalate ", " ts)),
              numToStringOrNull (some 2)⟩, 5⟩)
      ∧ (∀ n : Int, (some (4 : Int)) = some n → n ≠ 0 →
          numToStringOrNull (some 4) = some (toString n))
      ∧ ((some (4 : Int)) = some 0 → numToStringOrNull (some 4) = none)
      ∧ (∀ n : Int, (some (2 : Int)) = some n → n ≠ 0 →
          numToStringOrNull (some 2) = some (toString n))
      ∧ ((some (2 : Int)) = some 0 → numToStringOrNull (some 2) = none)) :=
  ⟨by decide, rfl, rfl,
    C9_streams_normalization MemStorage.init 5 0 oC9w 200 (some ⟨some "UP", none⟩)
      ⟨some "RUNNING", some 4, some ["t1"], some 2⟩ (by decide) rfl rfl⟩

/-- C9 counterexample: a successful streams probe reporting `threads: 0`
stores threads as null, not as the string "0" the claim requires. -/
theorem C9_counterexample :
    ((MemStorage.init.monitorService 5 0 oC9).getKafkaStreamsInfoByServiceId 0).map
        (fun r => r.payload.threads) = some none
    ∧ (some none : Option (Option String)) ≠ some (some "0") := by decide

/-- C10: The manual-refresh handler is a pure read: it returns the store
unchanged, reports count = number of registered services, and builds its
message from that count; it triggers no probe and no cycle. -/
theorem C10_refresh_readonly (st : MemStorage) :
    (refreshHandler st).2 = st
    ∧ (refreshHandler st).1.count = st.getAllServices.length
    ∧ (refreshHandler st).1.message
        = "Refreshing " ++ toString st.getAllServices.length ++ " services" :=
  ⟨rfl, rfl, rfl⟩

/-- C2: Category filtering is broken for non-admin callers.  With an empty
permitted set the handler returns *all* services (services 0 and 1), not the
empty list; with permitted set {1, 2} it returns only category 1's service
(only `categoryIds[0]` is consulted).  `getServicesByCategories` does return
[] for the empty set but likewise only honours the first category. -/
theorem C2_category_filter_bug :
    ((servicesForCaller dbC2 viewerEmptyC2).map (fun d => d.service.id) = [0, 1])
    ∧ ((servicesForCaller dbC2 viewerBothC2).map (fun d => d.service.id) = [0])
    ∧ (dbC2.getServicesByCategories [] = [])
    ∧ ((dbC2.getServicesByCategories [1, 2]).map (fun s => s.id) = [0]) := by decide

end BlackHawk
